import Mathlib

/-!
Shallow embedding of the Pastel Cutter simulation core
(src/components/GameCanvas.tsx and the orchestrating App shell).

Grid cells hold the numeric states of the source: 0 = Void (unowned),
1 = Claimed (owned/safe), 2 = Trail, 3 = transient "enemy zone" marker
used only inside cut resolution.  The grid is modelled as a total
function on integer coordinates; every read the source performs is
bounds-checked exactly where the source checks bounds, so values outside
the 64 x 48 range never influence any result.

Continuous positions, velocities and timestamps are modelled as
rationals (the source uses JS numbers; none of the verified claims
depends on float rounding).  The score multiplier uses a real power,
mirroring Math.pow.
-/

set_option maxRecDepth 8000

namespace PastelCutter

/-- Logic constants of the source (GameCanvas.tsx). -/
def GRID_WIDTH : Int := 64

def GRID_HEIGHT : Int := 48

def PLAYER_SPEED : ℚ := 0.3

def ENEMY_SPEED : ℚ := 0.2

def BOSS_SPEED : ℚ := 0.15

def LEVEL_TIME : ℚ := 90

/-- A grid: cell state at row y, column x (source: grid[y][x]). -/
abbrev Grid := Int → Int → Nat

/-- Coordinates inside the 64 x 48 playfield. -/
def inBp (x y : Int) : Prop :=
  0 ≤ x ∧ x < GRID_WIDTH ∧ 0 ≤ y ∧ y < GRID_HEIGHT

instance (x y : Int) : Decidable (inBp x y) := by
  unfold inBp; infer_instance

/-- Write one cell (source: grid[y][x] = v). -/
def setCell (g : Grid) (x y : Int) (v : Nat) : Grid :=
  fun y' x' => if y' = y ∧ x' = x then v else g y' x'

/-- The in-range cells in the row-major order of the source's scan loops. -/
def cellsList : List (Int × Int) :=
  (List.range 48).flatMap (fun y => (List.range 64).map (fun x => (Int.ofNat x, Int.ofNat y)))

/-- Number of Claimed cells (the source recomputes this by full scan). -/
def claimedCount (g : Grid) : Nat :=
  cellsList.countP (fun c => decide (g c.2 c.1 = 1))

/-- Neighbor offsets probed by floodFill and the boss-seed fallback:
(dx, dy) pairs in the fixed source order +y, -y, +x, -x. -/
def dirs : List (Int × Int) := [(0, 1), (0, -1), (1, 0), (-1, 0)]

/-- Offset a point by a direction. -/
def padd (p d : Int × Int) : Int × Int := (p.1 + d.1, p.2 + d.2)

/-- Cell value at a point. -/
def cellOf (g : Grid) (p : Int × Int) : Nat := g p.2 p.1

/-- One neighbor probe of the flood-fill loop body: if the neighbor is in
bounds and holds targetVal, mark it with replaceVal and push it. -/
def stepDir (x y : Int) (t r : Nat) (acc : Grid × List (Int × Int)) (d : Int × Int) :
    Grid × List (Int × Int) :=
  let nx := x + d.1
  let ny := y + d.2
  if inBp nx ny ∧ acc.1 ny nx = t then (setCell acc.1 nx ny r, (nx, ny) :: acc.2) else acc

/-- Process the four neighbors of a popped cell. -/
def floodStep (g : Grid) (x y : Int) (t r : Nat) : Grid × List (Int × Int) :=
  dirs.foldl (stepDir x y t r) (g, [])

/-- The flood-fill worklist loop.  The source pops from the end of a JS
array and pushes new cells there (LIFO); here the list head is the stack
top.  The source's while loop is bounded here by explicit fuel; a cell
is pushed only when it flips from targetVal to replaceVal, so for the
source's calls (targetVal 0, replaceVal 3) the loop pops at most
GRID_WIDTH * GRID_HEIGHT cells and the fuel is never exhausted. -/
def floodLoop (t r : Nat) : Nat → Grid → List (Int × Int) → Nat → Grid × Nat
  | _, g, [], count => (g, count)
  | 0, g, _ :: _, count => (g, count)
  | fuel + 1, g, p :: rest, count =>
    let s := floodStep g p.1 p.2 t r
    floodLoop t r fuel s.1 (s.2 ++ rest) (count + 1)

/-- floodFill of the source: bounds-check the seed, check it holds
targetVal, mark it and run the worklist, returning the updated grid and
the number of popped (marked) cells. -/
def floodFill (g : Grid) (startX startY : Int) (targetVal replaceVal : Nat) : Grid × Nat :=
  if startX < 0 ∨ GRID_WIDTH ≤ startX ∨ startY < 0 ∨ GRID_HEIGHT ≤ startY then (g, 0)
  else if g startY startX ≠ targetVal then (g, 0)
  else
    floodLoop targetVal replaceVal (GRID_WIDTH * GRID_HEIGHT).toNat
      (setCell g startX startY replaceVal) [(startX, startY)] 0

/-! ## Entities, power-ups and status effects (src/types.ts) -/

inductive EnemyType where
  | minion
  | boss
deriving DecidableEq, Repr

structure Enemy where
  x : ℚ
  y : ℚ
  vx : ℚ
  vy : ℚ
  type : EnemyType
  radius : ℚ
deriving DecidableEq, Repr

inductive PowerUpType where
  | FREEZE
  | INVINCIBLE
  | EXTRA_LIFE
  | TIME_BONUS
deriving DecidableEq, Repr

structure PowerUp where
  id : ℕ
  x : Int
  y : Int
  type : PowerUpType
deriving DecidableEq, Repr

/-- The mutable status refs touched by applyPowerUp, grouped. -/
structure Effects where
  frozenUntil : ℚ
  invincibleUntil : ℚ
  lives : Int
  timeLeft : ℚ
deriving DecidableEq, Repr

/-- applyPowerUp of the source (now is the Date.now() timestamp). -/
def applyPowerUp (now : ℚ) (t : PowerUpType) (e : Effects) : Effects :=
  match t with
  | .FREEZE => { e with frozenUntil := now + 5000 }
  | .INVINCIBLE => { e with invincibleUntil := now + 7000 }
  | .EXTRA_LIFE => { e with lives := e.lives + 1 }
  | .TIME_BONUS => { e with timeLeft := e.timeLeft + 30 }

structure Player where
  x : ℚ
  y : ℚ
  dir : ℚ × ℚ
deriving DecidableEq, Repr

/-- The simulation state held in the canvas refs. -/
structure SimState where
  grid : Grid
  player : Player
  enemies : List Enemy
  powerUps : List PowerUp
  lives : Int
  timeLeft : ℚ
  frozenUntil : ℚ
  invincibleUntil : ℚ
  score : Int
  isCuttingMode : Bool

/-! ## Scoring (the geometric scoring logic inside resolveFill) -/

/-- The score multiplier: 1 up to 80 percent owned, then a geometric
power of 4, exactly as the source computes it with Math.pow. -/
noncomputable def multiplier (currentPercent : ℝ) : ℝ :=
  if currentPercent > 0.8 then Real.rpow 4 ((currentPercent - 0.8) * 10) else 1

/-- addedScore = Math.floor(capturedCount * 10 * multiplier). -/
noncomputable def addedScore (capturedCount : ℕ) (currentPercent : ℝ) : Int :=
  ⌊(capturedCount : ℝ) * 10 * multiplier currentPercent⌋

/-! ## Cut resolution (resolveFill) -/

structure ResolveResult where
  grid : Grid
  powerUps : List PowerUp
  eff : Effects
  score : Int
  captured : ℕ
  applied : List PowerUp

/-- The seed-selection safety check of resolveFill: if the boss's cell
is not Void, probe its four neighbors in the fixed order +y, -y, +x, -x
(out-of-range probes fail, as the source's optional chaining makes them)
and reseed at the first Void neighbor; when none is found, the seed
stays at the boss's (non-Void) cell. -/
def bossSeed (g : Grid) (startX0 startY0 : Int) : Int × Int :=
  if g startY0 startX0 ≠ 0 then
    match dirs.find? (fun d =>
        decide (inBp (startX0 + d.1) (startY0 + d.2)) &&
        decide (g (startY0 + d.2) (startX0 + d.1) = 0)) with
    | some d => (startX0 + d.1, startY0 + d.2)
    | none => (startX0, startY0)
  else (startX0, startY0)

/-- resolveFill of the source.  Finds the boss, seeds a flood fill at its
cell (falling back to the first Void 4-neighbor when the boss sits on a
non-Void cell), marks the boss-connected Void region 3 on a working
copy, commits every still-0 cell to Claimed on the real grid, captures
power-ups whose cell is now Claimed (each applied once, in list order,
as the source's filter does), and adds the geometric score.  The
`applied` field records the power-ups whose effects were applied. -/
noncomputable def resolveFill (g : Grid) (enemies : List Enemy) (powerUps : List PowerUp)
    (eff : Effects) (score : Int) (currentPercent : ℝ) (now : ℚ) : ResolveResult :=
  match enemies.find? (fun e => decide (e.type = EnemyType.boss)) with
  | none => ⟨g, powerUps, eff, score, 0, []⟩
  | some boss =>
    let seed : Int × Int := bossSeed g ⌊boss.x⌋ ⌊boss.y⌋
    let temp := (floodFill g seed.1 seed.2 0 3).1
    let newGrid : Grid := fun y x => if inBp x y ∧ temp y x = 0 then 1 else g y x
    let capturedCount := cellsList.countP (fun c => decide (temp c.2 c.1 = 0))
    let appliedPUs := powerUps.filter (fun p => decide (newGrid p.y p.x = 1))
    let livePUs := powerUps.filter (fun p => ! decide (newGrid p.y p.x = 1))
    let newEff := appliedPUs.foldl (fun e p => applyPowerUp now p.type e) eff
    let newScore := if 0 < capturedCount then score + addedScore capturedCount currentPercent
      else score
    ⟨newGrid, livePUs, newEff, newScore, capturedCount, appliedPUs⟩

/-! ## Enemy movement, collision and death -/

/-- checkCollision of the source: out-of-bounds counts as a wall. -/
def checkCollision (g : Grid) (x y : ℚ) : Bool :=
  let gx : Int := ⌊x⌋
  let gy : Int := ⌊y⌋
  if gx < 0 ∨ GRID_WIDTH ≤ gx ∨ gy < 0 ∨ GRID_HEIGHT ≤ gy then true
  else decide (g gy gx = 1)

/-- One enemy's movement and per-axis bounce: the position advances by
the velocity first; then each axis probes one further step ahead and
inverts that axis's velocity if the probe hits Claimed or leaves the
grid. -/
def enemyStep (g : Grid) (e : Enemy) : Enemy :=
  let x1 := e.x + e.vx
  let y1 := e.y + e.vy
  let vx1 := if checkCollision g (x1 + e.vx) y1 then -e.vx else e.vx
  let vy1 := if checkCollision g x1 (y1 + e.vy) then -e.vy else e.vy
  { e with x := x1, y := y1, vx := vx1, vy := vy1 }

/-- Math.hypot(a, b) < c, expressed exactly on rationals: the
nonnegative Euclidean norm is below c iff c is positive and the squared
norm is below c squared. -/
def hypotLt (a b c : ℚ) : Bool :=
  decide (0 < c) && decide (a ^ 2 + b ^ 2 < c ^ 2)

/-- Clear every in-range Trail cell back to Void (the death loop). -/
def clearTrail (g : Grid) : Grid :=
  fun y x => if inBp x y ∧ g y x = 2 then 0 else g y x

/-- handleDeath of the source: lose a life, clear the trail, respawn the
player at the level spawn cell, disable cutting mode.  (The game-over
transition when lives reach 0 is the shell's concern.) -/
def handleDeath (st : SimState) : SimState :=
  { st with
    lives := st.lives - 1
    grid := clearTrail st.grid
    player := { x := (GRID_WIDTH : ℚ) / 2, y := 0, dir := (0, 0) }
    isCuttingMode := false }

/-- The collision checks the source runs for one (already moved) enemy:
trail touch kills unless invincible; proximity kills unless invincible
or the player stands on Claimed ground. -/
def enemyCollide (now : ℚ) (st : SimState) (e' : Enemy) : SimState :=
  let gx : Int := ⌊e'.x⌋
  let gy : Int := ⌊e'.y⌋
  let hitTrace := decide (inBp gx gy) && decide (st.grid gy gx = 2)
  let pGx : Int := round st.player.x
  let pGy : Int := round st.player.y
  let isPlayerSafe := decide (st.grid pGy pGx = 1)
  let isPlayerInvincible := decide (now < st.invincibleUntil)
  if hitTrace && ! isPlayerInvincible then handleDeath st
  else if hypotLt (st.player.x - e'.x) (st.player.y - e'.y) (e'.radius + 0.5) &&
      ! isPlayerInvincible then
    if ! isPlayerSafe then handleDeath st else st
  else st

/-- One iteration of the source's enemies.forEach body: move and bounce
this enemy against the current grid, then run its collision checks
against the current state. -/
def enemyIter (now : ℚ) (acc : SimState × List Enemy) (e : Enemy) : SimState × List Enemy :=
  let e' := enemyStep acc.1.grid e
  (enemyCollide now acc.1 e', acc.2 ++ [e'])

/-- The enemy phase of one tick: skipped entirely while frozen;
otherwise each enemy in order moves, bounces, and runs its collision
checks against the state as updated by earlier enemies (a death earlier
in the loop is visible to later enemies). -/
def enemyPhase (now : ℚ) (st : SimState) : SimState :=
  if now < st.frozenUntil then st
  else
    let res := st.enemies.foldl (enemyIter now) (st, [])
    { res.1 with enemies := res.2 }

/-! ## Player movement (the input/movement section of update) -/

/-- Directional intent from the pressed keys, with the source's else-if
priority Up > Down > Left > Right. -/
def inputDir (up down left right : Bool) : ℚ × ℚ :=
  if up then (0, -1)
  else if down then (0, 1)
  else if left then (-1, 0)
  else if right then (1, 0)
  else (0, 0)

/-- The player-movement section of update, for one tick with resolved
input direction (dx, dy).  Covers: facing update, bounds check on the
continuous candidate position, entry into Claimed ground (finishing a
cut converts all Trail to Claimed and, if any trail existed, runs
resolveFill with the ownership fraction measured after the conversion),
trail deposition into non-Claimed ground, and move rejection. -/
noncomputable def playerMove (st : SimState) (dx dy : ℚ) (now : ℚ) : SimState :=
  if dx = 0 ∧ dy = 0 then st
  else
    let player := st.player
    let grid := st.grid
    let dir' : ℚ × ℚ := (dx, dy)
    let cGx : Int := round player.x
    let cGy : Int := round player.y
    let isCurrentlyDrawing := decide (inBp cGx cGy) && decide (grid cGy cGx = 2)
    let nextX := player.x + dx * PLAYER_SPEED
    let nextY := player.y + dy * PLAYER_SPEED
    if ¬ (0 ≤ nextX ∧ nextX ≤ (GRID_WIDTH : ℚ) - 1 ∧ 0 ≤ nextY ∧ nextY ≤ (GRID_HEIGHT : ℚ) - 1)
    then { st with player := { player with dir := dir' } }
    else
      let gx : Int := round nextX
      let gy : Int := round nextY
      let isNextSafe := decide (grid gy gx = 1)
      if isNextSafe then
        let pl' : Player := { x := nextX, y := nextY, dir := dir' }
        if isCurrentlyDrawing then
          let g1 : Grid := fun y x => if inBp x y ∧ grid y x = 2 then 1 else grid y x
          let trailExists := cellsList.any (fun c => decide (grid c.2 c.1 = 2))
          if trailExists then
            let owned := cellsList.countP (fun c => decide (g1 c.2 c.1 = 1))
            let p : ℝ := (owned : ℝ) / (((GRID_WIDTH * GRID_HEIGHT : Int)) : ℝ)
            let R := resolveFill g1 st.enemies st.powerUps
              ⟨st.frozenUntil, st.invincibleUntil, st.lives, st.timeLeft⟩ st.score p now
            { st with
              grid := R.grid
              player := pl'
              powerUps := R.powerUps
              frozenUntil := R.eff.frozenUntil
              invincibleUntil := R.eff.invincibleUntil
              lives := R.eff.lives
              timeLeft := R.eff.timeLeft
              score := R.score }
          else { st with grid := g1, player := pl' }
        else { st with player := pl' }
      else
        if st.isCuttingMode || isCurrentlyDrawing then
          { st with grid := setCell grid gx gy 2, player := { x := nextX, y := nextY, dir := dir' } }
        else { st with player := { player with dir := dir' } }

/-! ## Level initialization and the orchestrating shell -/

/-- The initial grid: border Claimed, interior Void. -/
def initGrid : Grid :=
  fun y x =>
    if inBp x y ∧ (x = 0 ∨ x = GRID_WIDTH - 1 ∨ y = 0 ∨ y = GRID_HEIGHT - 1) then 1 else 0

/-- A minion built from four random draws (position and velocity signs). -/
def mkMinion (r1 r2 r3 r4 : ℚ) : Enemy :=
  { x := r1 * ((GRID_WIDTH : ℚ) - 4) + 2
    y := r2 * ((GRID_HEIGHT : ℚ) - 4) + 2
    vx := if r3 > 1 / 2 then ENEMY_SPEED else -ENEMY_SPEED
    vy := if r4 > 1 / 2 then ENEMY_SPEED else -ENEMY_SPEED
    type := .minion
    radius := 1.2 }

/-- initLevel of the source, with Math.random supplied by an oracle.
It resets grid, player, enemies, power-ups, timer and status effects;
it does NOT touch lives or the (App-owned) score, which are threaded
through unchanged. -/
def initLevel (level : ℕ) (rnd : ℕ → ℚ) (lives : Int) (score : Int) : SimState :=
  { grid := initGrid
    player := { x := (GRID_WIDTH : ℚ) / 2, y := 0, dir := (0, 0) }
    enemies :=
      { x := (GRID_WIDTH : ℚ) / 2, y := (GRID_HEIGHT : ℚ) / 2
        vx := if rnd 0 > 1 / 2 then BOSS_SPEED else -BOSS_SPEED
        vy := if rnd 1 > 1 / 2 then BOSS_SPEED else -BOSS_SPEED
        type := .boss, radius := 3.5 } ::
      (List.range (3 + level)).map (fun i =>
        mkMinion (rnd (4 * i + 2)) (rnd (4 * i + 3)) (rnd (4 * i + 4)) (rnd (4 * i + 5)))
    powerUps := []
    lives := lives
    timeLeft := LEVEL_TIME
    frozenUntil := 0
    invincibleUntil := 0
    score := score
    isCuttingMode := false }

/-- The effect GameCanvas runs on every entry into the PLAYING phase:
initLevel(); setLives(3); livesRef.current = 3.  It runs on each mount
with gameState PLAYING, i.e. on every level entry of a session. -/
def onEnterPlaying (level : ℕ) (rnd : ℕ → ℚ) (prevLives : Int) (score : Int) : SimState :=
  { initLevel level rnd prevLives score with lives := 3 }

/-- The App-owned session state around the canvas. -/
structure AppSession where
  level : ℕ
  score : Int
  sim : SimState

/-- handleStart of App: level 0, score 0, then (after asset generation)
the canvas mounts in PLAYING and runs its init effect. -/
def appStart (rnd : ℕ → ℚ) : AppSession :=
  { level := 0, score := 0, sim := onEnterPlaying 0 rnd 3 0 }

/-- handleNextLevel of App (the Victory screen's NEXT LEVEL button):
increment the level, keep the score, reload assets and re-enter
PLAYING, which re-runs the canvas init effect. -/
def appNextLevel (s : AppSession) (rnd : ℕ → ℚ) : AppSession :=
  { level := s.level + 1, score := s.score,
    sim := onEnterPlaying (s.level + 1) rnd s.sim.lives s.score }

/-! ## Flood-fill correctness theory -/

/-- 4-adjacency through the probe offsets. -/
def Adj (p q : Int × Int) : Prop := ∃ d ∈ dirs, q = padd p d

/-- Reachability from s through in-range cells of value t: the region a
flood fill seeded at s must mark.  The start itself is unconstrained, so
with t = 0 this is "4-connected to s through Void cells". -/
def ReachesT (g : Grid) (t : Nat) (s p : Int × Int) : Prop :=
  Relation.ReflTransGen (fun a b => Adj a b ∧ inBp b.1 b.2 ∧ cellOf g b = t) s p

/-- Void-reachability (targetVal 0, as resolveFill uses it). -/
abbrev Reaches (g : Grid) (s p : Int × Int) : Prop := ReachesT g 0 s p

/-- The in-range cells as a finset (for counting arguments). -/
def cellsFinset : Finset (Int × Int) :=
  Finset.Icc 0 (GRID_WIDTH - 1) ×ˢ Finset.Icc 0 (GRID_HEIGHT - 1)

lemma mem_cellsFinset {p : Int × Int} : p ∈ cellsFinset ↔ inBp p.1 p.2 := by
  simp only [cellsFinset, Finset.mem_product, Finset.mem_Icc, inBp, GRID_WIDTH, GRID_HEIGHT]
  omega

/-- Number of in-range cells holding value r. -/
def markCount (g : Grid) (r : Nat) : ℕ :=
  (cellsFinset.filter (fun p => cellOf g p = r)).card

lemma markCount_le (g : Grid) (r : Nat) :
    markCount g r ≤ (GRID_WIDTH * GRID_HEIGHT).toNat := by
  have h1 : markCount g r ≤ cellsFinset.card := Finset.card_filter_le _ _
  have h2 : cellsFinset.card = (GRID_WIDTH * GRID_HEIGHT).toNat := by
    simp only [cellsFinset, Finset.card_product, Int.card_Icc, GRID_WIDTH, GRID_HEIGHT]
    rfl
  omega

lemma cellOf_setCell (g : Grid) (x y : Int) (v : Nat) (q : Int × Int) :
    cellOf (setCell g x y v) q = if q = (x, y) then v else cellOf g q := by
  simp only [cellOf, setCell, Prod.ext_iff]
  by_cases h : q.2 = y ∧ q.1 = x
  · simp [h.1, h.2]
  · rw [if_neg h, if_neg (by tauto)]

lemma markCount_setCell (g : Grid) (x y : Int) (r : Nat) (hin : inBp x y)
    (hne : cellOf g (x, y) ≠ r) :
    markCount (setCell g x y r) r = markCount g r + 1 := by
  have hfilter : cellsFinset.filter (fun p => cellOf (setCell g x y r) p = r) =
      insert (x, y) (cellsFinset.filter (fun p => cellOf g p = r)) := by
    ext q
    simp only [Finset.mem_filter, Finset.mem_insert, cellOf_setCell]
    by_cases hq : q = (x, y)
    · subst hq
      simp [mem_cellsFinset, hin]
    · simp [hq]
  rw [markCount, hfilter, Finset.card_insert_of_not_mem (by simp [hne]), markCount]

lemma stepDir_cases (x y : Int) (t r : Nat) (h : Grid) (l : List (Int × Int))
    (d : Int × Int) :
    (inBp (x + d.1) (y + d.2) ∧ h (y + d.2) (x + d.1) = t ∧
      stepDir x y t r (h, l) d =
        (setCell h (x + d.1) (y + d.2) r, (x + d.1, y + d.2) :: l)) ∨
    (¬(inBp (x + d.1) (y + d.2) ∧ h (y + d.2) (x + d.1) = t) ∧
      stepDir x y t r (h, l) d = (h, l)) := by
  by_cases hcond : inBp (x + d.1) (y + d.2) ∧ h (y + d.2) (x + d.1) = t
  · left
    exact ⟨hcond.1, hcond.2, by simp [stepDir, hcond]⟩
  · right
    exact ⟨hcond, by simp [stepDir, hcond]⟩

/-- Joint specification of the neighbor-probing fold: the new pushes are
prepended; each push was a fresh in-range target cell, now marked and a
dirs-neighbor of (x, y); all other cells are untouched; after the fold no
in-range dirs-neighbor of (x, y) still holds the target value; and the
marked-cell count grows by exactly the number of pushes. -/
lemma foldl_stepDir_spec (t r : Nat) (hne : t ≠ r) (x y : Int) :
    ∀ (ds : List (Int × Int)) (h : Grid) (l : List (Int × Int)),
      ∃ lnew : List (Int × Int),
        (ds.foldl (stepDir x y t r) (h, l)).2 = lnew ++ l ∧
        (∀ q ∈ lnew, inBp q.1 q.2 ∧ cellOf h q = t ∧
          cellOf (ds.foldl (stepDir x y t r) (h, l)).1 q = r ∧ ∃ d ∈ ds, q = padd (x, y) d) ∧
        (∀ q, cellOf (ds.foldl (stepDir x y t r) (h, l)).1 q = cellOf h q ∨ q ∈ lnew) ∧
        (∀ d ∈ ds, inBp (x + d.1) (y + d.2) →
          cellOf (ds.foldl (stepDir x y t r) (h, l)).1 (padd (x, y) d) ≠ t) ∧
        markCount (ds.foldl (stepDir x y t r) (h, l)).1 r = markCount h r + lnew.length := by
  intro ds
  induction ds with
  | nil =>
    intro h l
    exact ⟨[], rfl, by simp, fun q => Or.inl rfl, by simp, by simp⟩
  | cons d rest ih =>
    intro h l
    rcases stepDir_cases x y t r h l d with ⟨hinB, hval, heq⟩ | ⟨hnc, heq⟩
    · -- the probe at d pushed (x + d.1, y + d.2)
      set nd : Int × Int := (x + d.1, y + d.2) with hnd
      have hstep : (d :: rest).foldl (stepDir x y t r) (h, l) =
          rest.foldl (stepDir x y t r) (setCell h nd.1 nd.2 r, nd :: l) := by
        simp [List.foldl, heq]
      obtain ⟨lnew₁, hA, hB, hC, hD, hE⟩ := ih (setCell h nd.1 nd.2 r) (nd :: l)
      refine ⟨lnew₁ ++ [nd], ?_, ?_, ?_, ?_, ?_⟩
      · rw [hstep, hA]; simp
      · intro q hq
        rw [hstep]
        rcases List.mem_append.mp hq with hq1 | hq1
        · obtain ⟨h1, h2, h3, d', hd', h4⟩ := hB q hq1
          have hqnd : q ≠ nd := by
            intro hqe
            rw [hqe, cellOf_setCell] at h2
            simp at h2
            exact hne h2.symm
          refine ⟨h1, ?_, h3, d', List.mem_cons_of_mem _ hd', h4⟩
          rw [cellOf_setCell, if_neg hqnd] at h2
          exact h2
        · have hqe : q = nd := by simpa using hq1
          subst hqe
          refine ⟨hinB, hval, ?_, d, List.mem_cons_self _ _, rfl⟩
          rcases hC nd with hc | hc
          · rw [hc, cellOf_setCell, if_pos rfl]
          · exact (hB nd hc).2.2.1
      · intro q
        rw [hstep]
        rcases hC q with hc | hc
        · by_cases hqe : q = nd
          · right; simp [hqe]
          · left; rw [hc, cellOf_setCell, if_neg hqe]
        · right; exact List.mem_append.mpr (Or.inl hc)
      · intro d' hd' hin'
        rw [hstep]
        rcases List.mem_cons.mp hd' with hde | hdm
        · subst hde
          have : cellOf (rest.foldl (stepDir x y t r) (setCell h nd.1 nd.2 r, nd :: l)).1 nd = r := by
            rcases hC nd with hc | hc
            · rw [hc, cellOf_setCell, if_pos rfl]
            · exact (hB nd hc).2.2.1
          rw [show padd (x, y) d' = nd from rfl, this]
          exact fun ht => hne ht.symm
        · exact hD d' hdm hin'
      · have hndne : cellOf h (nd.1, nd.2) ≠ r := by
          simp only [cellOf]
          rw [show h nd.2 nd.1 = t from hval]
          exact hne
        rw [hstep, hE, markCount_setCell h nd.1 nd.2 r hinB hndne]
        simp only [List.length_append, List.length_cons, List.length_nil]
        omega
    · -- the probe at d did not fire
      have hstep : (d :: rest).foldl (stepDir x y t r) (h, l) =
          rest.foldl (stepDir x y t r) (h, l) := by
        simp [List.foldl, heq]
      obtain ⟨lnew₁, hA, hB, hC, hD, hE⟩ := ih h l
      refine ⟨lnew₁, by rw [hstep]; exact hA, ?_, by rw [hstep]; exact hC, ?_, by rw [hstep]; exact hE⟩
      · intro q hq
        obtain ⟨h1, h2, h3, d', hd', h4⟩ := hB q hq
        exact ⟨h1, h2, by rw [hstep]; exact h3, d', List.mem_cons_of_mem _ hd', h4⟩
      · intro d' hd' hin'
        rw [hstep]
        rcases List.mem_cons.mp hd' with hde | hdm
        · subst hde
          have hvne : h (y + d'.2) (x + d'.1) ≠ t := fun hv => hnc ⟨hin', hv⟩
          rcases hC (padd (x, y) d') with hc | hc
          · rw [hc]; exact hvne
          · rw [(hB _ hc).2.2.1]; exact fun ht => hne ht.symm
        · exact hD d' hdm hin'

/-- The worklist invariant, relative to the grid gOrig as it was before
the seed was marked: queued cells are in-range and marked; marked cells
were target cells reachable from the seed; every cell is either
untouched or a marked former target cell; a marked cell no longer in the
queue has no in-range target-valued neighbor left; and the seed stays
marked. -/
def FloodInv (gOrig : Grid) (t r : Nat) (s : Int × Int) (g : Grid)
    (queue : List (Int × Int)) : Prop :=
  (∀ q ∈ queue, inBp q.1 q.2 ∧ cellOf g q = r) ∧
  (∀ q, inBp q.1 q.2 → cellOf g q = r → cellOf gOrig q = t ∧ ReachesT gOrig t s q) ∧
  (∀ q, cellOf g q = cellOf gOrig q ∨ (inBp q.1 q.2 ∧ cellOf gOrig q = t ∧ cellOf g q = r)) ∧
  (∀ m, inBp m.1 m.2 → cellOf g m = r → m ∉ queue →
    ∀ d ∈ dirs, inBp (m.1 + d.1) (m.2 + d.2) → cellOf g (padd m d) ≠ t) ∧
  cellOf g s = r

/-- When the queue has emptied, the invariant forces the marked set to
be exactly the target cells reachable from the seed. -/
lemma flood_final (gOrig : Grid) (t r : Nat) (s : Int × Int) (g : Grid)
    (hne : t ≠ r) (hs : inBp s.1 s.2) (hinv : FloodInv gOrig t r s g []) :
    (∀ q, inBp q.1 q.2 → (cellOf g q = r ↔ cellOf gOrig q = t ∧ ReachesT gOrig t s q)) ∧
    (∀ q, cellOf g q = cellOf gOrig q ∨
      (inBp q.1 q.2 ∧ cellOf gOrig q = t ∧ cellOf g q = r)) := by
  obtain ⟨_, hMarked, hChange, hClosed, hSeed⟩ := hinv
  have hReachMarked : ∀ q, ReachesT gOrig t s q → cellOf g q = r ∧ inBp q.1 q.2 := by
    intro q hq
    induction hq with
    | refl => exact ⟨hSeed, hs⟩
    | tail hab hbc ihb =>
      rename_i b c
      obtain ⟨⟨d, hd, hcd⟩, hcin, hct⟩ := hbc
      refine ⟨?_, hcin⟩
      have hnbr : cellOf g (padd b d) ≠ t := by
        refine hClosed b ihb.2 ihb.1 (List.not_mem_nil b) d hd ?_
        have : (padd b d).1 = b.1 + d.1 ∧ (padd b d).2 = b.2 + d.2 := ⟨rfl, rfl⟩
        rw [← this.1, ← this.2, ← hcd]
        exact hcin
      rw [← hcd] at hnbr
      rcases hChange c with hc | hc
      · exact absurd (hc.trans hct) hnbr
      · exact hc.2.2
  constructor
  · intro q hq
    constructor
    · exact hMarked q hq
    · intro ⟨_, hr⟩
      exact (hReachMarked q hr).1
  · exact hChange

/-- Main worklist lemma: starting from any state satisfying the
invariant, with the counting equation (pops so far + queue length =
marked cells) and enough fuel, the loop ends with the marked set equal
to exactly the reachable target cells, all other cells untouched. -/
lemma floodLoop_spec (gOrig : Grid) (t r : Nat) (s : Int × Int) (hne : t ≠ r)
    (hs : inBp s.1 s.2) :
    ∀ (fuel : ℕ) (g : Grid) (queue : List (Int × Int)) (count : ℕ),
      FloodInv gOrig t r s g queue →
      count + queue.length = markCount g r →
      fuel + count = (GRID_WIDTH * GRID_HEIGHT).toNat →
      (∀ q, inBp q.1 q.2 →
        (cellOf (floodLoop t r fuel g queue count).1 q = r ↔
          cellOf gOrig q = t ∧ ReachesT gOrig t s q)) ∧
      (∀ q, cellOf (floodLoop t r fuel g queue count).1 q = cellOf gOrig q ∨
        (inBp q.1 q.2 ∧ cellOf gOrig q = t ∧
          cellOf (floodLoop t r fuel g queue count).1 q = r)) := by
  intro fuel
  induction fuel with
  | zero =>
    intro g queue count hinv hcount hfuel
    have hq : queue = [] := by
      have hle := markCount_le g r
      have : queue.length = 0 := by omega
      exact List.eq_nil_of_length_eq_zero this
    subst hq
    simpa [floodLoop] using flood_final gOrig t r s g hne hs hinv
  | succ fuel ih =>
    intro g queue count hinv hcount hfuel
    match queue with
    | [] =>
      simpa [floodLoop] using flood_final gOrig t r s g hne hs hinv
    | p :: rest =>
      obtain ⟨hQueue, hMarked, hChange, hClosed, hSeed⟩ := hinv
      obtain ⟨hpin, hpr⟩ := hQueue p (List.mem_cons_self _ _)
      obtain ⟨lnew, hA, hB, hC, hD, hE⟩ :=
        foldl_stepDir_spec t r hne p.1 p.2 dirs g []
      set g' := (floodStep g p.1 p.2 t r).1 with hg'
      have hA' : (floodStep g p.1 p.2 t r).2 = lnew := by
        simpa [floodStep] using hA
      have hstep : floodLoop t r (fuel + 1) g (p :: rest) count =
          floodLoop t r fuel g' (lnew ++ rest) (count + 1) := by
        simp only [floodLoop]
        rw [hA']
      rw [hstep]
      -- monotonicity of marking over one step
      have hMono : ∀ q, cellOf g q = r → cellOf g' q = r := by
        intro q hq
        rcases hC q with hc | hc
        · rw [show cellOf g' q = cellOf (dirs.foldl (stepDir p.1 p.2 t r) (g, [])).1 q from rfl, hc]
          exact hq
        · exact (hB q hc).2.2.1
      have hNew : ∀ q ∈ lnew, inBp q.1 q.2 ∧ cellOf g q = t ∧ cellOf g' q = r ∧
          ∃ d ∈ dirs, q = padd p d := by
        intro q hq
        obtain ⟨h1, h2, h3, hd⟩ := hB q hq
        exact ⟨h1, h2, h3, by simpa using hd⟩
      have hUnch : ∀ q, cellOf g' q = cellOf g q ∨ q ∈ lnew := hC
      refine ih g' (lnew ++ rest) (count + 1) ⟨?_, ?_, ?_, ?_, ?_⟩ ?_ (by omega)
      · -- queued cells in-range and marked
        intro q hq
        rcases List.mem_append.mp hq with hq1 | hq1
        · obtain ⟨h1, _, h3, _⟩ := hNew q hq1
          exact ⟨h1, h3⟩
        · obtain ⟨h1, h2⟩ := hQueue q (List.mem_cons_of_mem _ hq1)
          exact ⟨h1, hMono q h2⟩
      · -- marked cells were reachable target cells
        intro q hqin hqr
        rcases hUnch q with hc | hc
        · rw [hc] at hqr
          exact hMarked q hqin hqr
        · obtain ⟨h1, h2, _, d, hd, hpd⟩ := hNew q hc
          have hqt : cellOf gOrig q = t := by
            rcases hChange q with hc2 | hc2
            · rw [← hc2]; exact h2
            · exact absurd h2 (by rw [hc2.2.2]; exact fun h => hne h.symm)
          refine ⟨hqt, ?_⟩
          have hpreach := hMarked p hpin hpr
          exact Relation.ReflTransGen.tail hpreach.2 ⟨⟨d, hd, hpd⟩, hqin, hqt⟩
      · -- every cell untouched or a marked former target cell
        intro q
        rcases hUnch q with hc | hc
        · rw [hc]
          exact hChange q
        · obtain ⟨h1, h2, h3, _⟩ := hNew q hc
          right
          refine ⟨h1, ?_, h3⟩
          rcases hChange q with hc2 | hc2
          · rw [← hc2]; exact h2
          · exact absurd h2 (by rw [hc2.2.2]; exact fun h => hne h.symm)
      · -- closure for marked cells no longer queued
        intro m hmin hmr hmq d hd hdin
        by_cases hmp : m = p
        · subst hmp
          exact hD d hd hdin
        · have hmr' : cellOf g m = r := by
            rcases hUnch m with hc | hc
            · rw [← hc]; exact hmr
            · exact absurd (List.mem_append.mpr (Or.inl hc)) hmq
          have hmq' : m ∉ p :: rest := by
            intro hmem
            rcases List.mem_cons.mp hmem with he | hm
            · exact hmp he
            · exact hmq (List.mem_append.mpr (Or.inr hm))
          have hold := hClosed m hmin hmr' hmq' d hd hdin
          rcases hUnch (padd m d) with hc | hc
          · rw [hc]; exact hold
          · rw [(hNew _ hc).2.2.1]
            exact fun h => hne h.symm
      · -- seed stays marked
        exact hMono s hSeed
      · -- counting equation
        have : markCount g' r = markCount g r + lnew.length := by
          simpa [floodStep] using hE
        simp only [List.length_append] at *
        simp only [List.length_cons] at hcount
        omega

/-- Correctness of floodFill: on a grid with no replaceVal cells, seeded
in range at a targetVal cell, the result marks exactly the target cells
reachable from the seed and leaves every other cell unchanged. -/
lemma floodFill_spec (g : Grid) (sx sy : Int) (t r : Nat) (hne : t ≠ r)
    (hNoR : ∀ q : Int × Int, inBp q.1 q.2 → cellOf g q ≠ r)
    (hs : inBp sx sy) (hst : g sy sx = t) :
    (∀ q : Int × Int, inBp q.1 q.2 →
      (cellOf (floodFill g sx sy t r).1 q = r ↔
        cellOf g q = t ∧ ReachesT g t (sx, sy) q)) ∧
    (∀ q : Int × Int, cellOf (floodFill g sx sy t r).1 q = cellOf g q ∨
      (inBp q.1 q.2 ∧ cellOf g q = t ∧ cellOf (floodFill g sx sy t r).1 q = r)) := by
  have hbounds : ¬(sx < 0 ∨ GRID_WIDTH ≤ sx ∨ sy < 0 ∨ GRID_HEIGHT ≤ sy) := by
    obtain ⟨h1, h2, h3, h4⟩ := hs
    omega
  have hff : floodFill g sx sy t r =
      floodLoop t r (GRID_WIDTH * GRID_HEIGHT).toNat
        (setCell g sx sy r) [(sx, sy)] 0 := by
    simp [floodFill, hbounds, hst]
  rw [hff]
  have hseedcell : cellOf (setCell g sx sy r) (sx, sy) = r := by
    rw [cellOf_setCell, if_pos rfl]
  have hother : ∀ q : Int × Int, q ≠ (sx, sy) →
      cellOf (setCell g sx sy r) q = cellOf g q := by
    intro q hq
    rw [cellOf_setCell, if_neg hq]
  have hOnly : ∀ q : Int × Int, inBp q.1 q.2 → cellOf (setCell g sx sy r) q = r →
      q = (sx, sy) := by
    intro q hqin hqr
    by_contra hqe
    rw [hother q hqe] at hqr
    exact hNoR q hqin hqr
  have hinv : FloodInv g t r (sx, sy) (setCell g sx sy r) [(sx, sy)] := by
    refine ⟨?_, ?_, ?_, ?_, hseedcell⟩
    · intro q hq
      rw [List.mem_singleton.mp hq]
      exact ⟨hs, hseedcell⟩
    · intro q hqin hqr
      rw [hOnly q hqin hqr]
      exact ⟨hst, Relation.ReflTransGen.refl⟩
    · intro q
      by_cases hqe : q = (sx, sy)
      · subst hqe
        right
        exact ⟨hs, hst, hseedcell⟩
      · left; exact hother q hqe
    · intro m hmin hmr hmq
      exact absurd (List.mem_singleton.mpr (hOnly m hmin hmr)) hmq
  have hcount : 0 + ([(sx, sy)] : List (Int × Int)).length = markCount (setCell g sx sy r) r := by
    have h0 : markCount g r = 0 := by
      rw [markCount, Finset.card_eq_zero, Finset.filter_eq_empty_iff]
      intro q hq
      exact hNoR q (mem_cellsFinset.mp hq)
    have h1 : markCount (setCell g sx sy r) r = markCount g r + 1 :=
      markCount_setCell g sx sy r hs (by rw [show cellOf g (sx, sy) = g sy sx from rfl, hst]; exact hne)
    simp [h1, h0]
  exact floodLoop_spec g t r (sx, sy) hne hs _ _ _ _ hinv hcount (by omega)

/-- floodFill leaves the grid unchanged when the seed is out of range or
does not hold the target value. -/
lemma floodFill_miss (g : Grid) (sx sy : Int) (t r : Nat)
    (h : sx < 0 ∨ GRID_WIDTH ≤ sx ∨ sy < 0 ∨ GRID_HEIGHT ≤ sy ∨ g sy sx ≠ t) :
    (floodFill g sx sy t r).1 = g := by
  unfold floodFill
  by_cases hb : sx < 0 ∨ GRID_WIDTH ≤ sx ∨ sy < 0 ∨ GRID_HEIGHT ≤ sy
  · rw [if_pos hb]
  · have hv : g sy sx ≠ t := by tauto
    rw [if_neg hb, if_pos hv]

/-! ## resolveFill unfolding and seed lemmas -/

lemma bossSeed_void (g : Grid) (sx sy : Int) (h : g sy sx = 0) :
    bossSeed g sx sy = (sx, sy) := by
  simp [bossSeed, h]

lemma bossSeed_none (g : Grid) (sx sy : Int) (h : g sy sx ≠ 0)
    (hnb : ∀ d ∈ dirs, ¬(inBp (sx + d.1) (sy + d.2) ∧ g (sy + d.2) (sx + d.1) = 0)) :
    bossSeed g sx sy = (sx, sy) := by
  have hfind : dirs.find? (fun d =>
      decide (inBp (sx + d.1) (sy + d.2)) &&
      decide (g (sy + d.2) (sx + d.1) = 0)) = none := by
    rw [List.find?_eq_none]
    intro d hd
    have := hnb d hd
    simp only [Bool.and_eq_true, decide_eq_true_eq]
    tauto
  simp [bossSeed, h, hfind]

lemma bossSeed_fallback (g : Grid) (sx sy : Int) (h : g sy sx ≠ 0) (d : Int × Int)
    (hfind : dirs.find? (fun d =>
      decide (inBp (sx + d.1) (sy + d.2)) &&
      decide (g (sy + d.2) (sx + d.1) = 0)) = some d) :
    bossSeed g sx sy = (sx + d.1, sy + d.2) ∧ d ∈ dirs ∧
      inBp (sx + d.1) (sy + d.2) ∧ g (sy + d.2) (sx + d.1) = 0 := by
  have hmem := List.mem_of_find?_eq_some hfind
  have hpred := List.find?_some hfind
  simp only [Bool.and_eq_true, decide_eq_true_eq] at hpred
  exact ⟨by simp [bossSeed, h, hfind], hmem, hpred.1, hpred.2⟩

/-- Unfolding of resolveFill when a boss is present. -/
lemma resolveFill_some (g : Grid) (enemies : List Enemy) (powerUps : List PowerUp)
    (eff : Effects) (score : Int) (currentPercent : ℝ) (now : ℚ) (boss : Enemy)
    (hfind : enemies.find? (fun e => decide (e.type = EnemyType.boss)) = some boss) :
    resolveFill g enemies powerUps eff score currentPercent now =
      (let seed : Int × Int := bossSeed g ⌊boss.x⌋ ⌊boss.y⌋
       let temp := (floodFill g seed.1 seed.2 0 3).1
       let newGrid : Grid := fun y x => if inBp x y ∧ temp y x = 0 then 1 else g y x
       let capturedCount := cellsList.countP (fun c => decide (temp c.2 c.1 = 0))
       let appliedPUs := powerUps.filter (fun p => decide (newGrid p.y p.x = 1))
       let livePUs := powerUps.filter (fun p => ! decide (newGrid p.y p.x = 1))
       let newEff := appliedPUs.foldl (fun e p => applyPowerUp now p.type e) eff
       let newScore := if 0 < capturedCount then score + addedScore capturedCount currentPercent
         else score
       ⟨newGrid, livePUs, newEff, newScore, capturedCount, appliedPUs⟩) := by
  unfold resolveFill
  rw [hfind]

/-- Unfolding of resolveFill when no boss is present. -/
lemma resolveFill_none (g : Grid) (enemies : List Enemy) (powerUps : List PowerUp)
    (eff : Effects) (score : Int) (currentPercent : ℝ) (now : ℚ)
    (hfind : enemies.find? (fun e => decide (e.type = EnemyType.boss)) = none) :
    resolveFill g enemies powerUps eff score currentPercent now =
      ⟨g, powerUps, eff, score, 0, []⟩ := by
  unfold resolveFill
  rw [hfind]

lemma mem_cellsList {c : Int × Int} : c ∈ cellsList ↔ inBp c.1 c.2 := by
  obtain ⟨cx, cy⟩ := c
  constructor
  · intro h
    simp only [cellsList, List.mem_flatMap, List.mem_map, List.mem_range] at h
    obtain ⟨y, hy, x, hx, hc⟩ := h
    simp only [Int.ofNat_eq_natCast, Prod.mk.injEq] at hc
    simp only [inBp, GRID_WIDTH, GRID_HEIGHT]
    omega
  · intro h
    simp only [inBp, GRID_WIDTH, GRID_HEIGHT] at h
    simp only [cellsList, List.mem_flatMap, List.mem_map, List.mem_range]
    refine ⟨cy.toNat, by omega, cx.toNat, by omega, ?_⟩
    simp only [Int.ofNat_eq_natCast, Prod.mk.injEq]
    constructor <;> omega

/-- Characterization of a committed cut resolution under the premise of
one boss-connected Void region: with a boss present, its floor cell in
range, every in-range cell Void or Claimed, some Void cell reachable
from the boss's cell, and all boss-reachable Void cells mutually
reachable (the "exactly one boss-connected region" premise), the
resolution claims exactly the non-boss-connected Void cells, preserves
the boss-connected Void region and all Claimed cells, and counts the
cells it newly claimed. -/
lemma resolveFill_region (g : Grid) (enemies : List Enemy) (powerUps : List PowerUp)
    (eff : Effects) (score : Int) (currentPercent : ℝ) (now : ℚ) (boss : Enemy)
    (hfind : enemies.find? (fun e => decide (e.type = EnemyType.boss)) = some boss)
    (hvals : ∀ x y : Int, inBp x y → g y x = 0 ∨ g y x = 1)
    (hin : inBp ⌊boss.x⌋ ⌊boss.y⌋)
    (hEx : ∃ p : Int × Int, inBp p.1 p.2 ∧ g p.2 p.1 = 0 ∧
      Reaches g (⌊boss.x⌋, ⌊boss.y⌋) p)
    (hUniq : ∀ p q : Int × Int, inBp p.1 p.2 → inBp q.1 q.2 →
      g p.2 p.1 = 0 → g q.2 q.1 = 0 →
      Reaches g (⌊boss.x⌋, ⌊boss.y⌋) p → Reaches g (⌊boss.x⌋, ⌊boss.y⌋) q →
      Reaches g p q) :
    (∀ x y : Int, inBp x y →
      ((g y x = 0 ∧ ¬ Reaches g (⌊boss.x⌋, ⌊boss.y⌋) (x, y) →
          (resolveFill g enemies powerUps eff score currentPercent now).grid y x = 1) ∧
        (g y x = 0 ∧ Reaches g (⌊boss.x⌋, ⌊boss.y⌋) (x, y) →
          (resolveFill g enemies powerUps eff score currentPercent now).grid y x = 0) ∧
        (g y x = 1 →
          (resolveFill g enemies powerUps eff score currentPercent now).grid y x = 1))) ∧
    (resolveFill g enemies powerUps eff score currentPercent now).captured =
      cellsList.countP (fun c => decide (g c.2 c.1 = 0) &&
        decide ((resolveFill g enemies powerUps eff score currentPercent now).grid c.2 c.1 = 1)) := by
  obtain ⟨seed, hseedeq, hseedin, hseed0, hReachIff⟩ :
      ∃ seed : Int × Int, bossSeed g ⌊boss.x⌋ ⌊boss.y⌋ = seed ∧ inBp seed.1 seed.2 ∧
        g seed.2 seed.1 = 0 ∧
        (∀ q : Int × Int, inBp q.1 q.2 → g q.2 q.1 = 0 →
          (Reaches g (⌊boss.x⌋, ⌊boss.y⌋) q ↔ Reaches g seed q)) := by
    by_cases hbc : g ⌊boss.y⌋ ⌊boss.x⌋ = 0
    · refine ⟨(⌊boss.x⌋, ⌊boss.y⌋), bossSeed_void _ _ _ hbc, hin, hbc, ?_⟩
      intro q _ _
      exact Iff.rfl
    · obtain ⟨p, hpin, hp0, hpr⟩ := hEx
      obtain ⟨d0, hd0, hstep⟩ : ∃ d0 ∈ dirs,
          inBp (⌊boss.x⌋ + d0.1) (⌊boss.y⌋ + d0.2) ∧
          g (⌊boss.y⌋ + d0.2) (⌊boss.x⌋ + d0.1) = 0 := by
        rcases Relation.ReflTransGen.cases_head hpr with heq | ⟨c, hc, _⟩
        · rw [← heq] at hp0
          exact absurd hp0 hbc
        · obtain ⟨⟨d, hd, hcd⟩, hcin, hc0⟩ := hc
          subst hcd
          exact ⟨d, hd, hcin, hc0⟩
      rcases hfd : dirs.find? (fun d =>
          decide (inBp (⌊boss.x⌋ + d.1) (⌊boss.y⌋ + d.2)) &&
          decide (g (⌊boss.y⌋ + d.2) (⌊boss.x⌋ + d.1) = 0)) with _ | d
      · exfalso
        have := List.find?_eq_none.mp hfd d0 hd0
        simp only [Bool.and_eq_true, decide_eq_true_eq] at this
        exact this ⟨hstep.1, hstep.2⟩
      · obtain ⟨hbs, hdm, hdin, hd0v⟩ := bossSeed_fallback g ⌊boss.x⌋ ⌊boss.y⌋ hbc d hfd
        refine ⟨(⌊boss.x⌋ + d.1, ⌊boss.y⌋ + d.2), hbs, hdin, hd0v, ?_⟩
        have hbossToSeed : Reaches g (⌊boss.x⌋, ⌊boss.y⌋) (⌊boss.x⌋ + d.1, ⌊boss.y⌋ + d.2) :=
          Relation.ReflTransGen.single ⟨⟨d, hdm, rfl⟩, hdin, hd0v⟩
        intro q hqin hq0
        constructor
        · intro hq
          exact hUniq _ q hdin hqin hd0v hq0 hbossToSeed hq
        · intro hq
          exact hbossToSeed.trans hq
  have hNoR : ∀ q : Int × Int, inBp q.1 q.2 → cellOf g q ≠ 3 := by
    intro q hq
    rcases hvals q.1 q.2 hq with h | h <;> simp [cellOf, h]
  obtain ⟨hc1, hc2⟩ := floodFill_spec g seed.1 seed.2 0 3 (by decide) hNoR hseedin hseed0
  set temp := (floodFill g seed.1 seed.2 0 3).1 with htempdef
  have htemp0 : ∀ q : Int × Int, inBp q.1 q.2 →
      (temp q.2 q.1 = 0 ↔ (g q.2 q.1 = 0 ∧ ¬ Reaches g seed q)) := by
    intro q hq
    have hc1q := hc1 q hq
    have hc2q := hc2 q
    simp only [cellOf] at hc1q hc2q
    constructor
    · intro h0
      rcases hc2q with hc | hc
      · rw [hc] at h0
        refine ⟨h0, fun hr => ?_⟩
        have h3 : temp q.2 q.1 = 3 := hc1q.mpr ⟨h0, by
          rw [show ((seed.1, seed.2) : Int × Int) = seed from rfl]; exact hr⟩
        rw [hc] at h3
        rw [h0] at h3
        exact absurd h3 (by norm_num)
      · rw [hc.2.2] at h0
        exact absurd h0 (by norm_num)
    · rintro ⟨hg0, hnr⟩
      have h3 : temp q.2 q.1 ≠ 3 := by
        intro h
        exact hnr (by
          have := (hc1q.mp h).2
          rw [show ((seed.1, seed.2) : Int × Int) = seed from rfl] at this
          exact this)
      rcases hc2q with hc | hc
      · rw [hc]; exact hg0
      · exact absurd hc.2.2 h3
  have hR := resolveFill_some g enemies powerUps eff score currentPercent now boss hfind
  rw [hseedeq] at hR
  have hgrid : ∀ x y : Int,
      (resolveFill g enemies powerUps eff score currentPercent now).grid y x =
        if inBp x y ∧ temp y x = 0 then 1 else g y x := by
    intro x y
    rw [hR]
  have hcap : (resolveFill g enemies powerUps eff score currentPercent now).captured =
      cellsList.countP (fun c => decide (temp c.2 c.1 = 0)) := by
    rw [hR]
  constructor
  · intro x y hxy
    have hiff := htemp0 (x, y) hxy
    have hreach := fun h0 => hReachIff (x, y) hxy h0
    refine ⟨?_, ?_, ?_⟩
    · rintro ⟨hg0, hnr⟩
      rw [hgrid, if_pos ⟨hxy, hiff.mpr ⟨hg0, fun hr => hnr ((hreach hg0).mpr hr)⟩⟩]
    · rintro ⟨hg0, hr⟩
      have ht : temp y x ≠ 0 := by
        intro h
        exact (hiff.mp h).2 ((hreach hg0).mp hr)
      rw [hgrid, if_neg (by tauto)]
      exact hg0
    · intro hg1
      have ht : temp y x ≠ 0 := by
        intro h
        rw [(hiff.mp h).1] at hg1
        exact absurd hg1 (by norm_num)
      rw [hgrid, if_neg (by tauto)]
      exact hg1
  · rw [hcap]
    refine List.countP_congr ?_
    intro c hc
    have hcin := mem_cellsList.mp hc
    have hiff := htemp0 c hcin
    by_cases ht : temp c.2 c.1 = 0
    · have hg0 := (hiff.mp ht).1
      have hg1 : (resolveFill g enemies powerUps eff score currentPercent now).grid c.2 c.1 = 1 := by
        rw [hgrid, if_pos ⟨hcin, ht⟩]
      simp [ht, hg0, hg1]
    · have hgr : (resolveFill g enemies powerUps eff score currentPercent now).grid c.2 c.1 =
          g c.2 c.1 := by
        rw [hgrid, if_neg (by tauto)]
      by_cases hg0 : g c.2 c.1 = 0
      · simp [ht, hg0, hgr]
      · simp [ht, hg0]

/-! ## Scoring lemmas -/

lemma multiplier_char (f : ℝ) :
    multiplier f = if f ≤ 0.8 then 1 else Real.rpow 4 ((f - 0.8) * 10) := by
  unfold multiplier
  rcases le_or_lt f 0.8 with h | h
  · rw [if_neg (not_lt.mpr h), if_pos h]
  · rw [if_pos h, if_neg (not_le.mpr h)]

lemma multiplier_nonneg (f : ℝ) : 0 ≤ multiplier f := by
  unfold multiplier
  split
  · exact le_of_lt (Real.rpow_pos_of_pos (by norm_num) _)
  · norm_num

lemma addedScore_nonneg (c : ℕ) (f : ℝ) : 0 ≤ addedScore c f := by
  unfold addedScore
  rw [Int.le_floor]
  push_cast
  exact mul_nonneg (mul_nonneg (Nat.cast_nonneg c) (by norm_num)) (multiplier_nonneg f)

lemma rpow_four_half : Real.rpow 4 (0.5 : ℝ) = 2 := by
  have h4 : (4 : ℝ) = (2 : ℝ) ^ ((2 : ℕ) : ℝ) := by
    rw [Real.rpow_natCast]
    norm_num
  rw [Real.rpow_eq_pow, h4, ← Real.rpow_mul (by norm_num : (0 : ℝ) ≤ 2)]
  rw [show ((2 : ℕ) : ℝ) * (0.5 : ℝ) = 1 by norm_num, Real.rpow_one]

lemma resolveFill_score (g : Grid) (enemies : List Enemy) (powerUps : List PowerUp)
    (eff : Effects) (score : Int) (currentPercent : ℝ) (now : ℚ) :
    (resolveFill g enemies powerUps eff score currentPercent now).score =
      score + ⌊((resolveFill g enemies powerUps eff score currentPercent now).captured : ℝ) *
        10 * multiplier currentPercent⌋ := by
  cases hfind : enemies.find? (fun e => decide (e.type = EnemyType.boss)) with
  | none =>
    rw [resolveFill_none g enemies powerUps eff score currentPercent now hfind]
    simp
  | some boss =>
    rw [resolveFill_some g enemies powerUps eff score currentPercent now boss hfind]
    dsimp only
    set cap := cellsList.countP
      (fun c => decide ((floodFill g (bossSeed g ⌊boss.x⌋ ⌊boss.y⌋).1
        (bossSeed g ⌊boss.x⌋ ⌊boss.y⌋).2 0 3).1 c.2 c.1 = 0)) with hcapdef
    by_cases hcap : 0 < cap
    · rw [if_pos hcap]
      rfl
    · rw [if_neg hcap]
      have hc0 : cap = 0 := by omega
      rw [hc0]
      norm_num

/-- Claim C2: the score delta of a resolution is
floor(capturedCount * 10 * m) with m = 1 for fraction at most 0.8 and
m = 4 ^ ((fraction - 0.8) * 10) above; capturedCount 10 at fraction 0.5
yields 100, at fraction 0.85 yields 200, and the delta is never
negative. -/
theorem C2_scoring_spec :
    (∀ (g : Grid) (enemies : List Enemy) (powerUps : List PowerUp) (eff : Effects)
      (score : Int) (currentPercent : ℝ) (now : ℚ),
      (resolveFill g enemies powerUps eff score currentPercent now).score =
        score + ⌊((resolveFill g enemies powerUps eff score currentPercent now).captured : ℝ) *
          10 * (if currentPercent ≤ 0.8 then 1 else Real.rpow 4 ((currentPercent - 0.8) * 10))⌋ ∧
      score ≤ (resolveFill g enemies powerUps eff score currentPercent now).score) ∧
    addedScore 10 0.5 = 100 ∧ addedScore 10 0.85 = 200 ∧
    (∀ (c : ℕ) (f : ℝ), 0 ≤ addedScore c f) := by
  refine ⟨?_, ?_, ?_, addedScore_nonneg⟩
  · intro g enemies powerUps eff score currentPercent now
    have hs := resolveFill_score g enemies powerUps eff score currentPercent now
    constructor
    · rw [hs, multiplier_char]
    · rw [hs]
      have : 0 ≤ ⌊((resolveFill g enemies powerUps eff score currentPercent now).captured : ℝ) *
          10 * multiplier currentPercent⌋ := by
        rw [Int.le_floor]
        push_cast
        exact mul_nonneg (mul_nonneg (Nat.cast_nonneg _) (by norm_num))
          (multiplier_nonneg currentPercent)
      omega
  · unfold addedScore
    rw [show multiplier 0.5 = 1 by rw [multiplier_char]; norm_num]
    norm_num
  · unfold addedScore
    rw [show multiplier 0.85 = 2 by
      rw [multiplier_char, if_neg (by norm_num)]
      rw [show ((0.85 : ℝ) - 0.8) * 10 = 0.5 by norm_num]
      exact rpow_four_half]
    norm_num

/-! ## The boss-on-wall double-edge case of resolveFill -/

/-- When the boss's cell is not Void and no 4-neighbor is Void, the
flood fill marks nothing, so the commit pass claims every in-range Void
cell of the whole grid and counts them all as captured. -/
lemma resolveFill_noSeed (g : Grid) (enemies : List Enemy) (powerUps : List PowerUp)
    (eff : Effects) (score : Int) (currentPercent : ℝ) (now : ℚ) (boss : Enemy)
    (hfind : enemies.find? (fun e => decide (e.type = EnemyType.boss)) = some boss)
    (hnv : g ⌊boss.y⌋ ⌊boss.x⌋ ≠ 0)
    (hnb : ∀ d ∈ dirs, ¬(inBp (⌊boss.x⌋ + d.1) (⌊boss.y⌋ + d.2) ∧
      g (⌊boss.y⌋ + d.2) (⌊boss.x⌋ + d.1) = 0)) :
    (∀ x y : Int, inBp x y →
      ((g y x = 0 → (resolveFill g enemies powerUps eff score currentPercent now).grid y x = 1) ∧
        (g y x ≠ 0 →
          (resolveFill g enemies powerUps eff score currentPercent now).grid y x = g y x))) ∧
    (resolveFill g enemies powerUps eff score currentPercent now).captured =
      cellsList.countP (fun c => decide (g c.2 c.1 = 0)) := by
  have hseed : bossSeed g ⌊boss.x⌋ ⌊boss.y⌋ = (⌊boss.x⌋, ⌊boss.y⌋) :=
    bossSeed_none g ⌊boss.x⌋ ⌊boss.y⌋ hnv hnb
  have htemp : (floodFill g (bossSeed g ⌊boss.x⌋ ⌊boss.y⌋).1
      (bossSeed g ⌊boss.x⌋ ⌊boss.y⌋).2 0 3).1 = g := by
    rw [hseed]
    exact floodFill_miss g ⌊boss.x⌋ ⌊boss.y⌋ 0 3 (Or.inr (Or.inr (Or.inr (Or.inr hnv))))
  have hR := resolveFill_some g enemies powerUps eff score currentPercent now boss hfind
  constructor
  · intro x y hxy
    constructor
    · intro hg0
      rw [hR]
      dsimp only
      rw [htemp, if_pos ⟨hxy, hg0⟩]
    · intro hg
      rw [hR]
      dsimp only
      rw [htemp, if_neg (fun h => hg h.2)]
  · rw [hR]
    dsimp only
    rw [htemp]

/-- A concrete grid whose single Void cell is (x, y) = (10, 10). -/
def gSingleVoid : Grid := fun y x => if x = 10 ∧ y = 10 then 0 else 1

/-- A concrete boss standing at (30.5, 30.5): its cell (30, 30) and all
four neighbors are Claimed in gSingleVoid. -/
def bossOnWall : Enemy :=
  { x := 61 / 2, y := 61 / 2, vx := 0.15, vy := 0.15, type := .boss, radius := 3.5 }

/-- Concrete status effects. -/
def effDefault : Effects :=
  { frozenUntil := 0, invincibleUntil := 0, lives := 3, timeLeft := 90 }

/-- Claim C3 counterexample: in the double-edge case (boss cell not
Void, no Void neighbor) the resolution is NOT a no-op: the Void cell
(10, 10), unreachable from the boss, is converted to Claimed, counted as
captured, and scored. -/
theorem C3_counterexample :
    gSingleVoid ⌊bossOnWall.y⌋ ⌊bossOnWall.x⌋ ≠ 0 ∧
    (∀ d ∈ dirs, ¬(inBp (⌊bossOnWall.x⌋ + d.1) (⌊bossOnWall.y⌋ + d.2) ∧
      gSingleVoid (⌊bossOnWall.y⌋ + d.2) (⌊bossOnWall.x⌋ + d.1) = 0)) ∧
    gSingleVoid 10 10 = 0 ∧
    (resolveFill gSingleVoid [bossOnWall] [] effDefault 0 (0.5 : ℝ) 0).grid 10 10 = 1 ∧
    (resolveFill gSingleVoid [bossOnWall] [] effDefault 0 (0.5 : ℝ) 0).score = 10 := by
  have hx : (⌊bossOnWall.x⌋ : Int) = 30 := by
    norm_num [bossOnWall]
  have hy : (⌊bossOnWall.y⌋ : Int) = 30 := by
    norm_num [bossOnWall]
  have hfind : ([bossOnWall] : List Enemy).find?
      (fun e => decide (e.type = EnemyType.boss)) = some bossOnWall := by
    simp [List.find?, bossOnWall]
  have hnv : gSingleVoid ⌊bossOnWall.y⌋ ⌊bossOnWall.x⌋ ≠ 0 := by
    rw [hx, hy]
    decide
  have hnb : ∀ d ∈ dirs, ¬(inBp (⌊bossOnWall.x⌋ + d.1) (⌊bossOnWall.y⌋ + d.2) ∧
      gSingleVoid (⌊bossOnWall.y⌋ + d.2) (⌊bossOnWall.x⌋ + d.1) = 0) := by
    rw [hx, hy]
    decide
  obtain ⟨hgrid, hcap⟩ := resolveFill_noSeed gSingleVoid [bossOnWall] [] effDefault 0
    (0.5 : ℝ) 0 bossOnWall hfind hnv hnb
  have hcap1 : (resolveFill gSingleVoid [bossOnWall] [] effDefault 0 (0.5 : ℝ) 0).captured = 1 := by
    rw [hcap]
    decide
  refine ⟨hnv, hnb, by decide, (hgrid 10 10 (by decide)).1 (by decide), ?_⟩
  rw [resolveFill_score, hcap1]
  rw [show multiplier 0.5 = 1 by rw [multiplier_char]; norm_num]
  norm_num

/-- Claim C3 (amended): if at cut resolution the Boss's cell is not
Void and none of its four neighbors (probed in the fixed order +y, -y,
+x, -x) is Void, then only the flood-fill marking is skipped; the
resolution is not a no-op: it converts every in-range Void cell of the
grid to Claimed (leaving non-Void cells unchanged) and counts all of
them as captured, so power-ups and score are processed for the whole
Void area. -/
theorem C3_boss_wall_claims_all (g : Grid) (enemies : List Enemy) (powerUps : List PowerUp)
    (eff : Effects) (score : Int) (currentPercent : ℝ) (now : ℚ) (boss : Enemy)
    (hfind : enemies.find? (fun e => decide (e.type = EnemyType.boss)) = some boss)
    (hnv : g ⌊boss.y⌋ ⌊boss.x⌋ ≠ 0)
    (hnb : ∀ d ∈ dirs, ¬(inBp (⌊boss.x⌋ + d.1) (⌊boss.y⌋ + d.2) ∧
      g (⌊boss.y⌋ + d.2) (⌊boss.x⌋ + d.1) = 0)) :
    (∀ x y : Int, inBp x y →
      ((g y x = 0 → (resolveFill g enemies powerUps eff score currentPercent now).grid y x = 1) ∧
        (g y x ≠ 0 →
          (resolveFill g enemies powerUps eff score currentPercent now).grid y x = g y x))) ∧
    (resolveFill g enemies powerUps eff score currentPercent now).captured =
      cellsList.countP (fun c => decide (g c.2 c.1 = 0)) :=
  resolveFill_noSeed g enemies powerUps eff score currentPercent now boss hfind hnv hnb

/-- Witness for the amended C3 at a concrete input. -/
theorem C3_boss_wall_claims_all_witness :
    (([bossOnWall] : List Enemy).find? (fun e => decide (e.type = EnemyType.boss)) =
        some bossOnWall ∧
      gSingleVoid ⌊bossOnWall.y⌋ ⌊bossOnWall.x⌋ ≠ 0 ∧
      (∀ d ∈ dirs, ¬(inBp (⌊bossOnWall.x⌋ + d.1) (⌊bossOnWall.y⌋ + d.2) ∧
        gSingleVoid (⌊bossOnWall.y⌋ + d.2) (⌊bossOnWall.x⌋ + d.1) = 0))) ∧
    ((∀ x y : Int, inBp x y →
      ((gSingleVoid y x = 0 →
          (resolveFill gSingleVoid [bossOnWall] [] effDefault 0 (0.5 : ℝ) 0).grid y x = 1) ∧
        (gSingleVoid y x ≠ 0 →
          (resolveFill gSingleVoid [bossOnWall] [] effDefault 0 (0.5 : ℝ) 0).grid y x =
            gSingleVoid y x))) ∧
    (resolveFill gSingleVoid [bossOnWall] [] effDefault 0 (0.5 : ℝ) 0).captured =
      cellsList.countP (fun c => decide (gSingleVoid c.2 c.1 = 0))) := by
  have hx : (⌊bossOnWall.x⌋ : Int) = 30 := by
    norm_num [bossOnWall]
  have hy : (⌊bossOnWall.y⌋ : Int) = 30 := by
    norm_num [bossOnWall]
  have hfind : ([bossOnWall] : List Enemy).find?
      (fun e => decide (e.type = EnemyType.boss)) = some bossOnWall := by
    simp [List.find?, bossOnWall]
  have hnv : gSingleVoid ⌊bossOnWall.y⌋ ⌊bossOnWall.x⌋ ≠ 0 := by
    rw [hx, hy]
    decide
  have hnb : ∀ d ∈ dirs, ¬(inBp (⌊bossOnWall.x⌋ + d.1) (⌊bossOnWall.y⌋ + d.2) ∧
      gSingleVoid (⌊bossOnWall.y⌋ + d.2) (⌊bossOnWall.x⌋ + d.1) = 0) := by
    rw [hx, hy]
    decide
  exact ⟨⟨hfind, hnv, hnb⟩,
    C3_boss_wall_claims_all gSingleVoid [bossOnWall] [] effDefault 0 (0.5 : ℝ) 0 bossOnWall
      hfind hnv hnb⟩

/-! ## Lives across level entries (claim C4) -/

/-- Claim C4 counterexample: a session that enters the next level with
five accrued lives has them reset to 3 by the PLAYING init effect, which
runs on every level entry — not only the first. -/
theorem C4_counterexample :
    (initLevel 2 (fun _ => 0) 5 500).lives = 5 ∧
    (appNextLevel ⟨2, 500, initLevel 2 (fun _ => 0) 5 500⟩ (fun _ => 0)).sim.lives = 3 ∧
    (3 : Int) ≠ 5 := by
  exact ⟨rfl, rfl, by decide⟩

/-- Claim C4 (amended): entering PLAYING sets lives to 3 on EVERY level
entry of a session, so a Next Level transition discards accrued lives;
the App-owned score is preserved across levels and the level index
advances. -/
theorem C4_lives_reset_every_entry (s : AppSession) (rnd r2 : ℕ → ℚ) (level : ℕ)
    (prevLives score : Int) :
    (onEnterPlaying level r2 prevLives score).lives = 3 ∧
    (appStart rnd).sim.lives = 3 ∧
    (appNextLevel s rnd).sim.lives = 3 ∧
    (appNextLevel s rnd).score = s.score ∧
    (appNextLevel s rnd).level = s.level + 1 :=
  ⟨rfl, rfl, rfl, rfl, rfl⟩

/-! ## Enemy bounce and the enemies-never-on-Claimed claim (C5) -/

lemma checkCollision_char (g : Grid) (x y : ℚ) :
    checkCollision g x y = true ↔ (¬ inBp ⌊x⌋ ⌊y⌋ ∨ g ⌊y⌋ ⌊x⌋ = 1) := by
  unfold checkCollision
  dsimp only
  split_ifs with h
  · simp only [true_iff]
    left
    simp only [inBp]
    omega
  · simp only [decide_eq_true_eq]
    constructor
    · exact fun hg => Or.inr hg
    · intro hor
      rcases hor with hni | hg
      · exfalso
        exact hni (by simp only [inBp]; omega)
      · exact hg

/-- A concrete grid Claimed exactly at cell (1, 1). -/
def gCorner : Grid := fun y x => if y = 1 ∧ x = 1 then 1 else 0

/-- A concrete enemy about to move diagonally into cell (1, 1): both
per-axis probes hit free cells (1, 0) and (0, 1). -/
def eDiag : Enemy :=
  { x := 0.9, y := 0.9, vx := 0.2, vy := 0.2, type := .minion, radius := 1.2 }

/-- Claim C5 counterexample: the per-axis probes do not prevent diagonal
entry — an enemy standing on a non-Claimed cell moves, in one enemy
step, onto a Claimed cell, refuting the invariant that no enemy's
occupied grid cell is ever Claimed. -/
theorem C5_counterexample :
    gCorner ⌊eDiag.y⌋ ⌊eDiag.x⌋ ≠ 1 ∧
    gCorner ⌊(enemyStep gCorner eDiag).y⌋ ⌊(enemyStep gCorner eDiag).x⌋ = 1 := by
  have hsx : (enemyStep gCorner eDiag).x = (0.9 : ℚ) + 0.2 := rfl
  have hsy : (enemyStep gCorner eDiag).y = (0.9 : ℚ) + 0.2 := rfl
  have hfx : (⌊(enemyStep gCorner eDiag).x⌋ : Int) = 1 := by
    rw [hsx]; norm_num
  have hfy : (⌊(enemyStep gCorner eDiag).y⌋ : Int) = 1 := by
    rw [hsy]; norm_num
  have hex : (⌊eDiag.x⌋ : Int) = 0 := by
    norm_num [eDiag]
  have hey : (⌊eDiag.y⌋ : Int) = 0 := by
    norm_num [eDiag]
  constructor
  · rw [hex, hey]
    decide
  · rw [hfx, hfy]
    decide

/-- Claim C5 (amended): the per-axis bounce rule itself holds — the
position advances by the velocity, and each axis's velocity component is
inverted exactly when that axis's one-step-ahead probe lands on a
Claimed cell or outside the grid, the other component unchanged.  (This
does not yield the claimed invariant: diagonal entry and cut resolution
can still put an enemy on a Claimed cell.) -/
theorem C5_axis_bounce (g : Grid) (e : Enemy) :
    (enemyStep g e).x = e.x + e.vx ∧ (enemyStep g e).y = e.y + e.vy ∧
    (enemyStep g e).vx =
      (if checkCollision g (e.x + e.vx + e.vx) (e.y + e.vy) then -e.vx else e.vx) ∧
    (enemyStep g e).vy =
      (if checkCollision g (e.x + e.vx) (e.y + e.vy + e.vy) then -e.vy else e.vy) ∧
    (∀ x y : ℚ, checkCollision g x y = true ↔ (¬ inBp ⌊x⌋ ⌊y⌋ ∨ g ⌊y⌋ ⌊x⌋ = 1)) :=
  ⟨rfl, rfl, rfl, rfl, checkCollision_char g⟩

/-! ## Death frame effect (claim C8) -/

/-- Claim C8: every death event (handleDeath is the single routine both
death causes invoke) decrements lives by 1, clears every in-range Trail
cell to Void while leaving Claimed and Void cells unchanged, resets the
player to the level spawn cell (the same position initLevel assigns),
and disables cutting mode; score, power-ups and enemies are untouched. -/
theorem C8_death_frame (st : SimState) (level : ℕ) (rnd : ℕ → ℚ) (lives score : Int) :
    (handleDeath st).lives = st.lives - 1 ∧
    (handleDeath st).player.x = (GRID_WIDTH : ℚ) / 2 ∧
    (handleDeath st).player.y = 0 ∧
    (handleDeath st).player = (initLevel level rnd lives score).player ∧
    (handleDeath st).isCuttingMode = false ∧
    (∀ x y : Int, inBp x y →
      ((st.grid y x = 2 → (handleDeath st).grid y x = 0) ∧
        (st.grid y x ≠ 2 → (handleDeath st).grid y x = st.grid y x))) ∧
    (handleDeath st).score = st.score ∧
    (handleDeath st).powerUps = st.powerUps ∧
    (handleDeath st).enemies = st.enemies := by
  refine ⟨rfl, rfl, rfl, rfl, rfl, ?_, rfl, rfl, rfl⟩
  intro x y hxy
  constructor
  · intro h2
    show clearTrail st.grid y x = 0
    unfold clearTrail
    rw [if_pos ⟨hxy, h2⟩]
  · intro h2
    show clearTrail st.grid y x = st.grid y x
    unfold clearTrail
    rw [if_neg (fun h => h2 h.2)]

/-! ## Power-up capture during resolution (claim C9) -/

/-- Claim C9: during one cut resolution, a live power-up whose cell went
from Void to Claimed is applied exactly once (it appears once in the
applied list, whose effects are folded over the status state) and leaves
the live set; a power-up whose cell is still Void stays live and
unapplied. -/
lemma count_filter_neg {α : Type} [DecidableEq α] {p : α → Bool} {l : List α} {a : α}
    (h : p a = false) : (l.filter p).count a = 0 := by
  rw [List.count_eq_zero]
  intro hmem
  have hpa := List.of_mem_filter hmem
  rw [h] at hpa
  exact absurd hpa (by simp)

/-- How a resolution treats one power-up: captured (its cell is Claimed
afterwards) means it moves to the applied list with its full
multiplicity and leaves the live list; otherwise it stays live and is
not applied.  The effects are the fold of applyPowerUp over the applied
list. -/
lemma resolveFill_powerups (g : Grid) (enemies : List Enemy) (powerUps : List PowerUp)
    (eff : Effects) (score : Int) (currentPercent : ℝ) (now : ℚ) (pu : PowerUp) (boss : Enemy)
    (hfind : enemies.find? (fun e => decide (e.type = EnemyType.boss)) = some boss) :
    ((resolveFill g enemies powerUps eff score currentPercent now).grid pu.y pu.x = 1 →
      (resolveFill g enemies powerUps eff score currentPercent now).applied.count pu =
        powerUps.count pu ∧
      (resolveFill g enemies powerUps eff score currentPercent now).powerUps.count pu = 0) ∧
    ((resolveFill g enemies powerUps eff score currentPercent now).grid pu.y pu.x ≠ 1 →
      (resolveFill g enemies powerUps eff score currentPercent now).applied.count pu = 0 ∧
      (resolveFill g enemies powerUps eff score currentPercent now).powerUps.count pu =
        powerUps.count pu) := by
  rw [resolveFill_some g enemies powerUps eff score currentPercent now boss hfind]
  dsimp only
  constructor
  · intro h1
    exact ⟨List.count_filter (decide_eq_true h1),
      count_filter_neg (by rw [decide_eq_true h1]; rfl)⟩
  · intro h1
    exact ⟨count_filter_neg (decide_eq_false h1),
      List.count_filter (by rw [decide_eq_false h1]; rfl)⟩

/-- The status effects a resolution produces are the applyPowerUp fold
over the applied power-ups, in list order. -/
lemma resolveFill_eff (g : Grid) (enemies : List Enemy) (powerUps : List PowerUp)
    (eff : Effects) (score : Int) (currentPercent : ℝ) (now : ℚ) :
    (resolveFill g enemies powerUps eff score currentPercent now).eff =
      (resolveFill g enemies powerUps eff score currentPercent now).applied.foldl
        (fun e p => applyPowerUp now p.type e) eff := by
  cases hfind : enemies.find? (fun e => decide (e.type = EnemyType.boss)) with
  | none =>
    rw [resolveFill_none g enemies powerUps eff score currentPercent now hfind]
    rfl
  | some boss =>
    rw [resolveFill_some g enemies powerUps eff score currentPercent now boss hfind]

/-- Claim C9: during one cut resolution, a live power-up whose cell went
from Void to Claimed is applied exactly once (it appears once in the
applied list, whose effects are folded over the status state) and leaves
the live set; a power-up whose cell is still Void stays live and
unapplied. -/
theorem C9_powerup_capture (g : Grid) (enemies : List Enemy) (powerUps : List PowerUp)
    (eff : Effects) (score : Int) (currentPercent : ℝ) (now : ℚ) (pu : PowerUp)
    (hmem : pu ∈ powerUps) (hcount : powerUps.count pu = 1) :
    ((g pu.y pu.x = 0 ∧
        (resolveFill g enemies powerUps eff score currentPercent now).grid pu.y pu.x = 1) →
      (resolveFill g enemies powerUps eff score currentPercent now).applied.count pu = 1 ∧
      (resolveFill g enemies powerUps eff score currentPercent now).powerUps.count pu = 0) ∧
    ((resolveFill g enemies powerUps eff score currentPercent now).grid pu.y pu.x = 0 →
      (resolveFill g enemies powerUps eff score currentPercent now).applied.count pu = 0 ∧
      (resolveFill g enemies powerUps eff score currentPercent now).powerUps.count pu = 1) ∧
    (resolveFill g enemies powerUps eff score currentPercent now).eff =
      (resolveFill g enemies powerUps eff score currentPercent now).applied.foldl
        (fun e p => applyPowerUp now p.type e) eff := by
  refine ⟨?_, ?_, resolveFill_eff g enemies powerUps eff score currentPercent now⟩
  · rintro ⟨h0, h1⟩
    cases hfind : enemies.find? (fun e => decide (e.type = EnemyType.boss)) with
    | none =>
      rw [resolveFill_none g enemies powerUps eff score currentPercent now hfind] at h1
      dsimp only at h1
      rw [h0] at h1
      exact absurd h1 (by decide)
    | some boss =>
      obtain ⟨hpos, _⟩ :=
        resolveFill_powerups g enemies powerUps eff score currentPercent now pu boss hfind
      obtain ⟨ha, hl⟩ := hpos h1
      exact ⟨ha.trans hcount, hl⟩
  · intro h0
    cases hfind : enemies.find? (fun e => decide (e.type = EnemyType.boss)) with
    | none =>
      rw [resolveFill_none g enemies powerUps eff score currentPercent now hfind]
      exact ⟨rfl, hcount⟩
    | some boss =>
      obtain ⟨_, hneg⟩ :=
        resolveFill_powerups g enemies powerUps eff score currentPercent now pu boss hfind
      have h1 : (resolveFill g enemies powerUps eff score currentPercent now).grid
          pu.y pu.x ≠ 1 := by
        rw [h0]
        decide
      obtain ⟨ha, hl⟩ := hneg h1
      exact ⟨ha, hl.trans hcount⟩

/-- A concrete power-up sitting on the single Void cell of gSingleVoid. -/
def puVoid : PowerUp := { id := 1, x := 10, y := 10, type := .EXTRA_LIFE }

/-- Witness for C9 at a concrete input. -/
theorem C9_powerup_capture_witness :
    (puVoid ∈ ([puVoid] : List PowerUp) ∧ ([puVoid] : List PowerUp).count puVoid = 1) ∧
    (((gSingleVoid puVoid.y puVoid.x = 0 ∧
        (resolveFill gSingleVoid [bossOnWall] [puVoid] effDefault 0 (0.5 : ℝ) 0).grid
          puVoid.y puVoid.x = 1) →
      (resolveFill gSingleVoid [bossOnWall] [puVoid] effDefault 0 (0.5 : ℝ) 0).applied.count
        puVoid = 1 ∧
      (resolveFill gSingleVoid [bossOnWall] [puVoid] effDefault 0 (0.5 : ℝ) 0).powerUps.count
        puVoid = 0) ∧
    ((resolveFill gSingleVoid [bossOnWall] [puVoid] effDefault 0 (0.5 : ℝ) 0).grid
        puVoid.y puVoid.x = 0 →
      (resolveFill gSingleVoid [bossOnWall] [puVoid] effDefault 0 (0.5 : ℝ) 0).applied.count
        puVoid = 0 ∧
      (resolveFill gSingleVoid [bossOnWall] [puVoid] effDefault 0 (0.5 : ℝ) 0).powerUps.count
        puVoid = 1) ∧
    (resolveFill gSingleVoid [bossOnWall] [puVoid] effDefault 0 (0.5 : ℝ) 0).eff =
      (resolveFill gSingleVoid [bossOnWall] [puVoid] effDefault 0 (0.5 : ℝ) 0).applied.foldl
        (fun e p => applyPowerUp 0 p.type e) effDefault) :=
  ⟨⟨by decide, by decide⟩,
    C9_powerup_capture gSingleVoid [bossOnWall] [puVoid] effDefault 0 (0.5 : ℝ) 0 puVoid
      (by decide) (by decide)⟩

/-! ## Monotonicity of owned territory (claim C6) -/

lemma claimedCount_mono (g g' : Grid)
    (h : ∀ x y : Int, inBp x y → g y x = 1 → g' y x = 1) :
    claimedCount g ≤ claimedCount g' := by
  unfold claimedCount
  refine List.countP_mono_left ?_
  intro c hc hp
  have hcin := mem_cellsList.mp hc
  simp only [decide_eq_true_eq] at hp ⊢
  exact h c.1 c.2 hcin hp

/-- A resolution never unclaims a cell. -/
lemma resolveFill_claimed_pointwise (g : Grid) (enemies : List Enemy)
    (powerUps : List PowerUp) (eff : Effects) (score : Int) (currentPercent : ℝ) (now : ℚ) :
    ∀ x y : Int, g y x = 1 →
      (resolveFill g enemies powerUps eff score currentPercent now).grid y x = 1 := by
  intro x y h1
  cases hfind : enemies.find? (fun e => decide (e.type = EnemyType.boss)) with
  | none =>
    rw [resolveFill_none g enemies powerUps eff score currentPercent now hfind]
    exact h1
  | some boss =>
    rw [resolveFill_some g enemies powerUps eff score currentPercent now boss hfind]
    dsimp only
    split_ifs with hc
    · rfl
    · exact h1

/-- Clearing the trail never unclaims a cell. -/
lemma clearTrail_claimed_pointwise (g : Grid) :
    ∀ x y : Int, g y x = 1 → clearTrail g y x = 1 := by
  intro x y h1
  unfold clearTrail
  rw [if_neg (fun h => by rw [h1] at h; exact absurd h.2 (by decide))]
  exact h1

/-- One player-movement step never unclaims a cell. -/
lemma playerMove_claimed_pointwise (st : SimState) (dx dy now : ℚ) :
    ∀ x y : Int, st.grid y x = 1 → (playerMove st dx dy now).grid y x = 1 := by
  intro x y h1
  unfold playerMove
  dsimp only
  have hg1 : ∀ x' y' : Int, st.grid y' x' = 1 →
      (fun yy xx => if inBp xx yy ∧ st.grid yy xx = 2 then 1 else st.grid yy xx) y' x' = 1 := by
    intro x' y' h'
    dsimp only
    split_ifs with hcc
    · rfl
    · exact h'
  split_ifs with h hb hsafe hdraw htrail hcut
  · exact h1
  · exact resolveFill_claimed_pointwise _ _ _ _ _ _ _ x y (hg1 x y h1)
  · exact hg1 x y h1
  · exact h1
  · show setCell st.grid (round (st.player.x + dx * PLAYER_SPEED))
      (round (st.player.y + dy * PLAYER_SPEED)) 2 y x = 1
    unfold setCell
    split_ifs with heq
    · exfalso
      obtain ⟨hy, hx⟩ := heq
      rw [hy, hx] at h1
      simp_all
    · exact h1
  · exact h1
  · exact h1

/-- Claim C6: the number of Claimed cells (hence the owned fraction,
whose denominator is the constant cell total) never decreases under any
simulation operation: player movement with trail deposition and cut
completion, cut resolution itself, and a death event's trail clearing.
Trail cells are never counted as owned, so clearing them does not lower
the count. -/
theorem C6_owned_fraction_monotone (st : SimState) (dx dy now : ℚ) (g : Grid)
    (enemies : List Enemy) (powerUps : List PowerUp) (eff : Effects) (score : Int)
    (currentPercent : ℝ) (now2 : ℚ) :
    claimedCount st.grid ≤ claimedCount (playerMove st dx dy now).grid ∧
    claimedCount g ≤
      claimedCount (resolveFill g enemies powerUps eff score currentPercent now2).grid ∧
    claimedCount st.grid ≤ claimedCount (handleDeath st).grid :=
  ⟨claimedCount_mono _ _ (fun x y _ => playerMove_claimed_pointwise st dx dy now x y),
    claimedCount_mono _ _ (fun x y _ =>
      resolveFill_claimed_pointwise g enemies powerUps eff score currentPercent now2 x y),
    claimedCount_mono _ _ (fun x y _ => clearTrail_claimed_pointwise st.grid x y)⟩

/-! ## Player movement into non-Claimed ground (claim C7) -/

/-- Claim C7: on a tick whose candidate next position is inside the
grid and whose target cell is not Claimed, the player advances and the
target cell is marked Trail exactly when cutting mode is active or the
player's current cell is already Trail (no other cell changes);
otherwise the move is rejected: position and grid are unchanged. -/
theorem C7_move_into_unclaimed (st : SimState) (dx dy now : ℚ)
    (hmove : ¬(dx = 0 ∧ dy = 0))
    (hbounds : 0 ≤ st.player.x + dx * PLAYER_SPEED ∧
      st.player.x + dx * PLAYER_SPEED ≤ (GRID_WIDTH : ℚ) - 1 ∧
      0 ≤ st.player.y + dy * PLAYER_SPEED ∧
      st.player.y + dy * PLAYER_SPEED ≤ (GRID_HEIGHT : ℚ) - 1)
    (hnc : st.grid (round (st.player.y + dy * PLAYER_SPEED))
      (round (st.player.x + dx * PLAYER_SPEED)) ≠ 1) :
    ((st.isCuttingMode = true ∨
        (inBp (round st.player.x) (round st.player.y) ∧
          st.grid (round st.player.y) (round st.player.x) = 2)) →
      (playerMove st dx dy now).player.x = st.player.x + dx * PLAYER_SPEED ∧
      (playerMove st dx dy now).player.y = st.player.y + dy * PLAYER_SPEED ∧
      (playerMove st dx dy now).grid (round (st.player.y + dy * PLAYER_SPEED))
        (round (st.player.x + dx * PLAYER_SPEED)) = 2 ∧
      (∀ x y : Int, ¬(y = round (st.player.y + dy * PLAYER_SPEED) ∧
          x = round (st.player.x + dx * PLAYER_SPEED)) →
        (playerMove st dx dy now).grid y x = st.grid y x)) ∧
    (¬(st.isCuttingMode = true ∨
        (inBp (round st.player.x) (round st.player.y) ∧
          st.grid (round st.player.y) (round st.player.x) = 2)) →
      (playerMove st dx dy now).player.x = st.player.x ∧
      (playerMove st dx dy now).player.y = st.player.y ∧
      (playerMove st dx dy now).grid = st.grid) := by
  have hbool : (st.isCuttingMode ||
      (decide (inBp (round st.player.x) (round st.player.y)) &&
        decide (st.grid (round st.player.y) (round st.player.x) = 2))) = true ↔
      (st.isCuttingMode = true ∨
        (inBp (round st.player.x) (round st.player.y) ∧
          st.grid (round st.player.y) (round st.player.x) = 2)) := by
    simp only [Bool.or_eq_true, Bool.and_eq_true, decide_eq_true_eq]
  have hred : playerMove st dx dy now =
      (if (st.isCuttingMode ||
          (decide (inBp (round st.player.x) (round st.player.y)) &&
            decide (st.grid (round st.player.y) (round st.player.x) = 2))) = true then
        { st with
          grid := setCell st.grid (round (st.player.x + dx * PLAYER_SPEED))
            (round (st.player.y + dy * PLAYER_SPEED)) 2
          player :=
            { x := st.player.x + dx * PLAYER_SPEED
              y := st.player.y + dy * PLAYER_SPEED
              dir := (dx, dy) } }
      else { st with player := { st.player with dir := (dx, dy) } }) := by
    unfold playerMove
    dsimp only
    rw [if_neg hmove, if_neg (not_not_intro hbounds),
      if_neg (show ¬(decide (st.grid (round (st.player.y + dy * PLAYER_SPEED))
        (round (st.player.x + dx * PLAYER_SPEED)) = 1) = true) by
        simp only [decide_eq_true_eq]
        exact hnc)]
  constructor
  · intro hcond
    rw [hred, if_pos (hbool.mpr hcond)]
    refine ⟨rfl, rfl, ?_, ?_⟩
    · show setCell st.grid _ _ 2 _ _ = 2
      unfold setCell
      rw [if_pos ⟨rfl, rfl⟩]
    · intro x y hxy
      show setCell st.grid _ _ 2 y x = st.grid y x
      unfold setCell
      rw [if_neg hxy]
  · intro hncond
    rw [hred, if_neg (fun hb => hncond (hbool.mp hb))]
    exact ⟨rfl, rfl, rfl⟩

/-- A concrete state: fresh level, player standing inside the Void
interior at (32, 1) with cutting mode on. -/
def stCutting : SimState :=
  { initLevel 0 (fun _ => 0) 3 0 with
    player := { x := 32, y := 1, dir := (0, 0) }
    isCuttingMode := true }

/-- Witness for C7 at a concrete input: moving down from (32, 1) with
cutting mode on. -/
theorem C7_move_into_unclaimed_witness :
    ((¬((0 : ℚ) = 0 ∧ (1 : ℚ) = 0)) ∧
      (0 ≤ stCutting.player.x + 0 * PLAYER_SPEED ∧
        stCutting.player.x + 0 * PLAYER_SPEED ≤ (GRID_WIDTH : ℚ) - 1 ∧
        0 ≤ stCutting.player.y + 1 * PLAYER_SPEED ∧
        stCutting.player.y + 1 * PLAYER_SPEED ≤ (GRID_HEIGHT : ℚ) - 1) ∧
      stCutting.grid (round (stCutting.player.y + 1 * PLAYER_SPEED))
        (round (stCutting.player.x + 0 * PLAYER_SPEED)) ≠ 1) ∧
    (((stCutting.isCuttingMode = true ∨
        (inBp (round stCutting.player.x) (round stCutting.player.y) ∧
          stCutting.grid (round stCutting.player.y) (round stCutting.player.x) = 2)) →
      (playerMove stCutting 0 1 0).player.x = stCutting.player.x + 0 * PLAYER_SPEED ∧
      (playerMove stCutting 0 1 0).player.y = stCutting.player.y + 1 * PLAYER_SPEED ∧
      (playerMove stCutting 0 1 0).grid (round (stCutting.player.y + 1 * PLAYER_SPEED))
        (round (stCutting.player.x + 0 * PLAYER_SPEED)) = 2 ∧
      (∀ x y : Int, ¬(y = round (stCutting.player.y + 1 * PLAYER_SPEED) ∧
          x = round (stCutting.player.x + 0 * PLAYER_SPEED)) →
        (playerMove stCutting 0 1 0).grid y x = stCutting.grid y x)) ∧
    (¬(stCutting.isCuttingMode = true ∨
        (inBp (round stCutting.player.x) (round stCutting.player.y) ∧
          stCutting.grid (round stCutting.player.y) (round stCutting.player.x) = 2)) →
      (playerMove stCutting 0 1 0).player.x = stCutting.player.x ∧
      (playerMove stCutting 0 1 0).player.y = stCutting.player.y ∧
      (playerMove stCutting 0 1 0).grid = stCutting.grid)) := by
  have hmove : ¬((0 : ℚ) = 0 ∧ (1 : ℚ) = 0) := by
    norm_num
  have hbounds : 0 ≤ stCutting.player.x + 0 * PLAYER_SPEED ∧
      stCutting.player.x + 0 * PLAYER_SPEED ≤ (GRID_WIDTH : ℚ) - 1 ∧
      0 ≤ stCutting.player.y + 1 * PLAYER_SPEED ∧
      stCutting.player.y + 1 * PLAYER_SPEED ≤ (GRID_HEIGHT : ℚ) - 1 := by
    show (0 : ℚ) ≤ 32 + 0 * PLAYER_SPEED ∧ (32 : ℚ) + 0 * PLAYER_SPEED ≤ (GRID_WIDTH : ℚ) - 1 ∧
      (0 : ℚ) ≤ 1 + 1 * PLAYER_SPEED ∧ (1 : ℚ) + 1 * PLAYER_SPEED ≤ (GRID_HEIGHT : ℚ) - 1
    norm_num [PLAYER_SPEED, GRID_WIDTH, GRID_HEIGHT]
  have hnc : stCutting.grid (round (stCutting.player.y + 1 * PLAYER_SPEED))
      (round (stCutting.player.x + 0 * PLAYER_SPEED)) ≠ 1 := by
    have hry : round (stCutting.player.y + 1 * PLAYER_SPEED) = 1 := by
      show round ((1 : ℚ) + 1 * PLAYER_SPEED) = 1
      rw [round_eq]
      norm_num [PLAYER_SPEED]
    have hrx : round (stCutting.player.x + 0 * PLAYER_SPEED) = 32 := by
      show round ((32 : ℚ) + 0 * PLAYER_SPEED) = 32
      rw [round_eq]
      norm_num [PLAYER_SPEED]
    rw [hry, hrx]
    show initGrid 1 32 ≠ 1
    decide
  exact ⟨⟨hmove, hbounds, hnc⟩, C7_move_into_unclaimed stCutting 0 1 0 hmove hbounds hnc⟩

/-! ## At most one death event per tick (claim C10) -/

lemma clearTrail_no_trail (g : Grid) : ∀ x y : Int, inBp x y → clearTrail g y x ≠ 2 := by
  intro x y hxy
  unfold clearTrail
  split_ifs with h
  · decide
  · intro h2
    exact h ⟨hxy, h2⟩

/-- One enemy's collision check either leaves the state alone or applies
handleDeath to it. -/
lemma enemyCollide_cases (now : ℚ) (st : SimState) (e' : Enemy) :
    enemyCollide now st e' = st ∨ enemyCollide now st e' = handleDeath st := by
  unfold enemyCollide
  dsimp only
  split_ifs <;> first | (left; rfl) | (right; rfl)

/-- After a death the state is absorbing for this tick's remaining
enemies: the trail is gone (no trail-touch death) and the player stands
on the Claimed spawn cell (no proximity death), provided the spawn cell
(32, 0) is Claimed. -/
lemma enemyCollide_after_death (now : ℚ) (st : SimState) (e' : Enemy)
    (hspawn : st.grid 0 32 = 1) :
    enemyCollide now (handleDeath st) e' = handleDeath st := by
  have hnt : (decide (inBp ⌊e'.x⌋ ⌊e'.y⌋) &&
      decide ((handleDeath st).grid ⌊e'.y⌋ ⌊e'.x⌋ = 2)) = false := by
    by_cases hin : inBp ⌊e'.x⌋ ⌊e'.y⌋
    · have hno := clearTrail_no_trail st.grid ⌊e'.x⌋ ⌊e'.y⌋ hin
      simp only [Bool.and_eq_false_iff, decide_eq_false_iff_not]
      right
      exact hno
    · simp only [Bool.and_eq_false_iff, decide_eq_false_iff_not]
      left
      exact hin
  have hry : round (handleDeath st).player.y = 0 := by
    show round (0 : ℚ) = 0
    rw [round_eq]
    norm_num
  have hrx : round (handleDeath st).player.x = 32 := by
    show round ((GRID_WIDTH : ℚ) / 2) = 32
    rw [round_eq]
    norm_num [GRID_WIDTH]
  have hsafe : (handleDeath st).grid (round (handleDeath st).player.y)
      (round (handleDeath st).player.x) = 1 := by
    rw [hry, hrx]
    show clearTrail st.grid 0 32 = 1
    unfold clearTrail
    rw [if_neg (fun h => by rw [hspawn] at h; exact absurd h.2 (by decide))]
    exact hspawn
  unfold enemyCollide
  dsimp only
  rw [hnt, Bool.false_and, if_neg (by decide : ¬(false = true))]
  split_ifs with hcond hns
  · exfalso
    rw [Bool.not_eq_true', decide_eq_false_iff_not] at hns
    exact hns hsafe
  · rfl
  · rfl

/-- The enemy fold keeps the state in {original, one death applied}. -/
lemma enemyPhase_fold_cases (now : ℚ) (st : SimState) (hspawn : st.grid 0 32 = 1) :
    ∀ (l : List Enemy) (acc : SimState × List Enemy),
      (acc.1 = st ∨ acc.1 = handleDeath st) →
      ((l.foldl (enemyIter now) acc).1 = st ∨
        (l.foldl (enemyIter now) acc).1 = handleDeath st) := by
  intro l
  induction l with
  | nil =>
    intro acc h
    exact h
  | cons e rest ih =>
    intro acc h
    rw [List.foldl_cons]
    apply ih
    have hiter : (enemyIter now acc e).1 = enemyCollide now acc.1 (enemyStep acc.1.grid e) := rfl
    rw [hiter]
    rcases h with h | h
    · rw [h]
      exact enemyCollide_cases now st (enemyStep st.grid e)
    · rw [h, enemyCollide_after_death now st _ hspawn]
      right
      rfl

/-- Claim C10: in one enemy phase (the only part of a tick that can
produce death events) at most one death occurs: either the state's
lives, grid and player are untouched, or exactly one death was applied —
lives drop by one, the player is respawned on the Claimed spawn cell,
cutting mode is off, and no Trail cell remains, so no later enemy of the
same tick can trigger a second trail-touch or proximity death.  Requires
the level invariant that the spawn cell (32, 0) is Claimed. -/
theorem C10_at_most_one_death (now : ℚ) (st : SimState) (hspawn : st.grid 0 32 = 1) :
    ((enemyPhase now st).lives = st.lives ∧ (enemyPhase now st).grid = st.grid ∧
      (enemyPhase now st).player = st.player) ∨
    ((enemyPhase now st).lives = st.lives - 1 ∧
      (enemyPhase now st).player.x = (GRID_WIDTH : ℚ) / 2 ∧
      (enemyPhase now st).player.y = 0 ∧
      (enemyPhase now st).isCuttingMode = false ∧
      (∀ x y : Int, inBp x y → (enemyPhase now st).grid y x ≠ 2)) := by
  unfold enemyPhase
  dsimp only
  split_ifs with hf
  · left
    exact ⟨rfl, rfl, rfl⟩
  · rcases enemyPhase_fold_cases now st hspawn st.enemies (st, []) (Or.inl rfl) with h | h
    · left
      rw [h]
      exact ⟨rfl, rfl, rfl⟩
    · right
      rw [h]
      refine ⟨rfl, rfl, rfl, rfl, ?_⟩
      intro x y hxy
      exact clearTrail_no_trail st.grid x y hxy

/-- Witness for C10 at a concrete input: a freshly initialized level,
whose spawn cell is on the Claimed border. -/
theorem C10_at_most_one_death_witness :
    (initLevel 0 (fun _ => 0) 3 0).grid 0 32 = 1 ∧
    (((enemyPhase 0 (initLevel 0 (fun _ => 0) 3 0)).lives =
        (initLevel 0 (fun _ => 0) 3 0).lives ∧
      (enemyPhase 0 (initLevel 0 (fun _ => 0) 3 0)).grid = (initLevel 0 (fun _ => 0) 3 0).grid ∧
      (enemyPhase 0 (initLevel 0 (fun _ => 0) 3 0)).player =
        (initLevel 0 (fun _ => 0) 3 0).player) ∨
    ((enemyPhase 0 (initLevel 0 (fun _ => 0) 3 0)).lives =
        (initLevel 0 (fun _ => 0) 3 0).lives - 1 ∧
      (enemyPhase 0 (initLevel 0 (fun _ => 0) 3 0)).player.x = (GRID_WIDTH : ℚ) / 2 ∧
      (enemyPhase 0 (initLevel 0 (fun _ => 0) 3 0)).player.y = 0 ∧
      (enemyPhase 0 (initLevel 0 (fun _ => 0) 3 0)).isCuttingMode = false ∧
      (∀ x y : Int, inBp x y →
        (enemyPhase 0 (initLevel 0 (fun _ => 0) 3 0)).grid y x ≠ 2))) := by
  have hspawn : (initLevel 0 (fun _ => 0) 3 0).grid 0 32 = 1 := by
    show initGrid 0 32 = 1
    decide
  exact ⟨hspawn, C10_at_most_one_death 0 (initLevel 0 (fun _ => 0) 3 0) hspawn⟩

/-! ## Claim C1: region classification of cut resolution -/

/-- Claim C1: on any grid whose cells are all Void or Claimed (Trail
already converted), with the boss's cell in range and the premise that
the boss-connected Void cells form exactly one region (some Void cell is
reachable from the boss's cell, and all boss-reachable Void cells are
mutually reachable), cut resolution converts every Void cell not
4-connected to the boss's cell to Claimed, leaves every Void cell of the
boss-connected region Void, leaves Claimed cells Claimed, and its
captured count is exactly the number of cells that changed from Void to
Claimed — all disjoint enclosed regions are captured in this single
pass. -/
theorem C1_cut_resolution_regions (g : Grid) (enemies : List Enemy) (powerUps : List PowerUp)
    (eff : Effects) (score : Int) (currentPercent : ℝ) (now : ℚ) (boss : Enemy)
    (hfind : enemies.find? (fun e => decide (e.type = EnemyType.boss)) = some boss)
    (hvals : ∀ x y : Int, inBp x y → g y x = 0 ∨ g y x = 1)
    (hin : inBp ⌊boss.x⌋ ⌊boss.y⌋)
    (hEx : ∃ p : Int × Int, inBp p.1 p.2 ∧ g p.2 p.1 = 0 ∧
      Reaches g (⌊boss.x⌋, ⌊boss.y⌋) p)
    (hUniq : ∀ p q : Int × Int, inBp p.1 p.2 → inBp q.1 q.2 →
      g p.2 p.1 = 0 → g q.2 q.1 = 0 →
      Reaches g (⌊boss.x⌋, ⌊boss.y⌋) p → Reaches g (⌊boss.x⌋, ⌊boss.y⌋) q →
      Reaches g p q) :
    (∀ x y : Int, inBp x y →
      ((g y x = 0 ∧ ¬ Reaches g (⌊boss.x⌋, ⌊boss.y⌋) (x, y) →
          (resolveFill g enemies powerUps eff score currentPercent now).grid y x = 1) ∧
        (g y x = 0 ∧ Reaches g (⌊boss.x⌋, ⌊boss.y⌋) (x, y) →
          (resolveFill g enemies powerUps eff score currentPercent now).grid y x = 0) ∧
        (g y x = 1 →
          (resolveFill g enemies powerUps eff score currentPercent now).grid y x = 1))) ∧
    (resolveFill g enemies powerUps eff score currentPercent now).captured =
      cellsList.countP (fun c => decide (g c.2 c.1 = 0) &&
        decide ((resolveFill g enemies powerUps eff score currentPercent now).grid c.2 c.1 = 1)) :=
  resolveFill_region g enemies powerUps eff score currentPercent now boss
    hfind hvals hin hEx hUniq

/-- A concrete boss standing at (10.5, 10.5), i.e. on the single Void
cell of gSingleVoid. -/
def bossAtVoid : Enemy :=
  { x := 21 / 2, y := 21 / 2, vx := 0.15, vy := 0.15, type := .boss, radius := 3.5 }

/-- Witness for C1 at a concrete input: the single-Void-cell grid with
the boss on that cell. -/
theorem C1_cut_resolution_regions_witness :
    (([bossAtVoid] : List Enemy).find? (fun e => decide (e.type = EnemyType.boss)) =
        some bossAtVoid ∧
      (∀ x y : Int, inBp x y → gSingleVoid y x = 0 ∨ gSingleVoid y x = 1) ∧
      inBp ⌊bossAtVoid.x⌋ ⌊bossAtVoid.y⌋ ∧
      (∃ p : Int × Int, inBp p.1 p.2 ∧ gSingleVoid p.2 p.1 = 0 ∧
        Reaches gSingleVoid (⌊bossAtVoid.x⌋, ⌊bossAtVoid.y⌋) p) ∧
      (∀ p q : Int × Int, inBp p.1 p.2 → inBp q.1 q.2 →
        gSingleVoid p.2 p.1 = 0 → gSingleVoid q.2 q.1 = 0 →
        Reaches gSingleVoid (⌊bossAtVoid.x⌋, ⌊bossAtVoid.y⌋) p →
        Reaches gSingleVoid (⌊bossAtVoid.x⌋, ⌊bossAtVoid.y⌋) q →
        Reaches gSingleVoid p q)) ∧
    ((∀ x y : Int, inBp x y →
      ((gSingleVoid y x = 0 ∧ ¬ Reaches gSingleVoid (⌊bossAtVoid.x⌋, ⌊bossAtVoid.y⌋) (x, y) →
          (resolveFill gSingleVoid [bossAtVoid] [] effDefault 0 (0.5 : ℝ) 0).grid y x = 1) ∧
        (gSingleVoid y x = 0 ∧ Reaches gSingleVoid (⌊bossAtVoid.x⌋, ⌊bossAtVoid.y⌋) (x, y) →
          (resolveFill gSingleVoid [bossAtVoid] [] effDefault 0 (0.5 : ℝ) 0).grid y x = 0) ∧
        (gSingleVoid y x = 1 →
          (resolveFill gSingleVoid [bossAtVoid] [] effDefault 0 (0.5 : ℝ) 0).grid y x = 1))) ∧
    (resolveFill gSingleVoid [bossAtVoid] [] effDefault 0 (0.5 : ℝ) 0).captured =
      cellsList.countP (fun c => decide (gSingleVoid c.2 c.1 = 0) &&
        decide ((resolveFill gSingleVoid [bossAtVoid] [] effDefault 0 (0.5 : ℝ) 0).grid
          c.2 c.1 = 1))) := by
  have hx : (⌊bossAtVoid.x⌋ : Int) = 10 := by
    norm_num [bossAtVoid]
  have hy : (⌊bossAtVoid.y⌋ : Int) = 10 := by
    norm_num [bossAtVoid]
  have hvoidcell : ∀ p : Int × Int, gSingleVoid p.2 p.1 = 0 → p = (10, 10) := by
    intro p hp
    by_cases hc : p.1 = 10 ∧ p.2 = 10
    · exact Prod.ext hc.1 hc.2
    · exfalso
      unfold gSingleVoid at hp
      rw [if_neg hc] at hp
      exact absurd hp (by decide)
  have hfind : ([bossAtVoid] : List Enemy).find?
      (fun e => decide (e.type = EnemyType.boss)) = some bossAtVoid := by
    simp [List.find?, bossAtVoid]
  have hvals : ∀ x y : Int, inBp x y → gSingleVoid y x = 0 ∨ gSingleVoid y x = 1 := by
    intro x y _
    unfold gSingleVoid
    split_ifs
    · left; rfl
    · right; rfl
  have hin : inBp ⌊bossAtVoid.x⌋ ⌊bossAtVoid.y⌋ := by
    rw [hx, hy]
    decide
  have hEx : ∃ p : Int × Int, inBp p.1 p.2 ∧ gSingleVoid p.2 p.1 = 0 ∧
      Reaches gSingleVoid (⌊bossAtVoid.x⌋, ⌊bossAtVoid.y⌋) p := by
    refine ⟨(10, 10), by decide, by decide, ?_⟩
    rw [hx, hy]
    exact Relation.ReflTransGen.refl
  have hUniq : ∀ p q : Int × Int, inBp p.1 p.2 → inBp q.1 q.2 →
      gSingleVoid p.2 p.1 = 0 → gSingleVoid q.2 q.1 = 0 →
      Reaches gSingleVoid (⌊bossAtVoid.x⌋, ⌊bossAtVoid.y⌋) p →
      Reaches gSingleVoid (⌊bossAtVoid.x⌋, ⌊bossAtVoid.y⌋) q →
      Reaches gSingleVoid p q := by
    intro p q _ _ hp0 hq0 _ _
    rw [hvoidcell p hp0, hvoidcell q hq0]
    exact Relation.ReflTransGen.refl
  exact ⟨⟨hfind, hvals, hin, hEx, hUniq⟩,
    C1_cut_resolution_regions gSingleVoid [bossAtVoid] [] effDefault 0 (0.5 : ℝ) 0 bossAtVoid
      hfind hvals hin hEx hUniq⟩

end PastelCutter
